import Mathlib

/-!
Verification of the Candy Tempest cluster-pays slot engine core.

This file gives a shallow embedding in Lean 4 of the engine core of the
repository (the seeded RNG `src/utils/rng.ts`, the grid evaluator
`src/engine/evaluator.ts`, the game state machine `src/engine/stateMachine.ts`
and the engine coordinator `gameEngine.ts`), and proves the spec claims
about it.

Modelling conventions:
* JavaScript 32-bit integer values are modelled by their unsigned bit
  patterns, i.e. natural numbers `< 2^32`; `x | 0`, `>>> 0` are pattern
  identities, `Math.imul`, `+`, `<<` reduce modulo `2^32`, `>>>` is
  division by a power of two, `^` and `|` are `Nat.xor` / `Nat.lor`.
* Other JavaScript numbers (bets, balances, payout multipliers, rarities)
  are modelled as rationals `ℚ`.
* `Record<string, number>` tables keyed by decimal strings of counts or
  cluster sizes are modelled as association lists keyed by `ℕ` (the
  `toString` keying is a bijection on the sizes/counts that occur).
* A JS `Set` of position keys is modelled as a `Finset (ℤ × ℤ)`.
* The grid `Symbol[][]` with null holes is modelled as a total function
  `ℤ → ℤ → Option GameSymbol` (row, then column, as in `this.grid[row][col]`);
  only in-bounds cells are ever written.
* The JS value `undefined` produced by indexing an array out of range
  (only reachable with an empty symbol pool) is modelled by the sentinel
  id `undefinedId`.
* Stateful methods become explicit state passing; the RNG is threaded.
-/

/-! ## Seeded RNG (`src/utils/rng.ts`) -/

/-- Internal sfc32 state: four 32-bit unsigned words. -/
structure RNGState where
  a : ℕ
  b : ℕ
  c : ℕ
  d : ℕ
deriving Repr, DecidableEq

/-- `mulberry32Hash`: avalanche hash used for seed mixing. -/
def mulberry32Hash (x0 : ℕ) : ℕ :=
  -- x |= 0 : pattern identity
  let x := (x0 + 0x9e3779b9) % 4294967296
  let t := Nat.xor x (x / 65536)
  let t := (t * 0x21f0aaad) % 4294967296
  let t := Nat.xor t (t / 32768)
  let t := (t * 0x735a2d97) % 4294967296
  Nat.xor t (t / 32768)

/-- The `SeededRNG` constructor: folds every character code of the seed's
string form into four accumulator words.  The seed (string or number) is
represented by the list of char codes of its string form. -/
def mkSeededRNG (seedStr : List ℕ) : RNGState :=
  let q := seedStr.foldl
    (fun (h : ℕ × ℕ × ℕ × ℕ) ch =>
      (mulberry32Hash (Nat.xor h.1 ch),
       mulberry32Hash (Nat.xor h.2.1 ch),
       mulberry32Hash (Nat.xor h.2.2.1 ch),
       mulberry32Hash (Nat.xor h.2.2.2 ch)))
    (1779033703, 3144134277, 1013904242, 2773480762)
  ⟨q.1, q.2.1, q.2.2.1, q.2.2.2⟩

/-- `setSeed`: re-seeds an existing generator, overwriting all four words
(the prior state `_r` is not consulted). -/
def setSeed (_r : RNGState) (seedStr : List ℕ) : RNGState :=
  let q := seedStr.foldl
    (fun (h : ℕ × ℕ × ℕ × ℕ) ch =>
      (mulberry32Hash (Nat.xor h.1 ch),
       mulberry32Hash (Nat.xor h.2.1 ch),
       mulberry32Hash (Nat.xor h.2.2.1 ch),
       mulberry32Hash (Nat.xor h.2.2.2 ch)))
    (1779033703, 3144134277, 1013904242, 2773480762)
  ⟨q.1, q.2.1, q.2.2.1, q.2.2.2⟩

/-- `next()`: one sfc32 step.  Returns the 32-bit output pattern
(`result >>> 0`) together with the new state; the JS method returns this
pattern divided by `2^32`. -/
def next (r : RNGState) : ℕ × RNGState :=
  let t := (r.a + r.b) % 4294967296
  let a' := Nat.xor r.b (r.b / 512)
  let b' := (r.c + (r.c * 8) % 4294967296) % 4294967296
  let c' := Nat.lor ((r.c * 2097152) % 4294967296) (r.c / 2048)
  let d' := (r.d + 1) % 4294967296
  let result := (t + d') % 4294967296
  let c'' := (c' + result) % 4294967296
  (result, ⟨a', b', c'', d'⟩)

/-- `next()` as the rational in `[0,1)` actually returned to callers. -/
def nextQ (r : RNGState) : ℚ × RNGState :=
  let p := next r
  ((p.1 : ℚ) / 4294967296, p.2)

/-- The stream of the first `n` `next()` outputs of a generator. -/
def nextStream (r : RNGState) : ℕ → List ℚ
  | 0 => []
  | n + 1 =>
    let p := nextQ r
    p.1 :: nextStream p.2 n

/-- `choice(array)`: `array[Math.floor(next() * array.length)]`
(i.e. `array[this.nextInt(0, array.length)]`).  Out-of-range indexing
(empty array) yields the JS `undefined`, modelled by `undefinedId`. -/
def undefinedId : String := "undefined"

def choice (array : List String) (r : RNGState) : String × RNGState :=
  let p := nextQ r
  let i : ℤ := ⌊p.1 * (array.length : ℚ)⌋
  (if h : 0 ≤ i ∧ i.toNat < array.length then array.get ⟨i.toNat, h.2⟩
   else undefinedId, p.2)

/-- Inner loop of `weightedChoice`: walk the items, subtracting weights
from the random draw until it turns non-positive.  Exhausted weights make
every later comparison fail (NaN semantics in JS), so they are skipped. -/
def weightedChoiceGo : List ℚ → List ℚ → ℚ → Option ℚ
  | [], _, _ => none
  | _ :: its, [], random => weightedChoiceGo its [] random
  | it :: its, w :: ws, random =>
    if random - w ≤ 0 then some it else weightedChoiceGo its ws (random - w)

/-- `weightedChoice(items, weights)`; falls back to the last element.
An empty `items` yields JS `undefined`, modelled as `0`. -/
def weightedChoice (items : List ℚ) (weights : List ℚ) (r : RNGState) :
    ℚ × RNGState :=
  let totalWeight := weights.foldl (· + ·) 0
  let p := nextQ r
  let random := p.1 * totalWeight
  (match weightedChoiceGo items weights random with
   | some v => v
   | none => (items.getLast?).getD 0, p.2)

/-! ## Game state machine (`src/engine/stateMachine.ts`) -/

/-- `GameState` enum. -/
inductive GameState where
  | IDLE | SPINNING | EVALUATING | TUMBLING | SHOWING_WIN
  | FREE_SPINS_TRIGGER | FREE_SPINS | GAME_OVER
deriving Repr, DecidableEq

/-- `GameEvent` enum. -/
inductive GameEvent where
  | SPIN | SPIN_COMPLETE | EVALUATION_COMPLETE | WIN_DETECTED | NO_WIN
  | TUMBLE_COMPLETE | WIN_ANIMATION_COMPLETE | FREE_SPINS_TRIGGERED
  | FREE_SPINS_COMPLETE | BALANCE_INSUFFICIENT | RESET
deriving Repr, DecidableEq

/-- `GameStateData`: the mutable record owned by the state machine. -/
structure GameStateData where
  balance : ℚ
  bet : ℚ
  totalWin : ℚ
  cascadeCount : ℚ
  freeSpinsRemaining : ℚ
  isInFreeSpins : Bool
  multiplier : ℚ
  lastWinAmount : ℚ
  autoSpinCount : ℚ
  maxAutoSpins : ℚ
  stopOnWin : Bool
  stopOnLoss : Bool
  winThreshold : ℚ
  lossThreshold : ℚ
deriving Repr, DecidableEq

/-- A transition rule: source, target, triggering event, optional guard and
optional action (mutation of the state data). -/
structure StateTransition where
  src : GameState
  dst : GameState
  event : GameEvent
  condition : Option (GameStateData → Bool)
  action : Option (GameStateData → GameStateData)

open GameState GameEvent in
/-- The transition table built by `initializeTransitions`, in source order. -/
def transitions : List StateTransition :=
  [ -- From IDLE
    ⟨IDLE, SPINNING, SPIN,
      some (fun data => data.bet ≤ data.balance),
      some (fun data => { data with
        balance := data.balance - data.bet
        cascadeCount := 0
        totalWin := 0
        multiplier := 1 })⟩,
    ⟨IDLE, GAME_OVER, SPIN,
      some (fun data => data.balance < data.bet), none⟩,
    -- From SPINNING
    ⟨SPINNING, EVALUATING, SPIN_COMPLETE, none, none⟩,
    -- From EVALUATING
    ⟨EVALUATING, SHOWING_WIN, WIN_DETECTED, none,
      some (fun data => { data with cascadeCount := data.cascadeCount + 1 })⟩,
    ⟨EVALUATING, FREE_SPINS_TRIGGER, FREE_SPINS_TRIGGERED, none,
      some (fun data => data)⟩,  -- action body is empty in the source
    ⟨EVALUATING, IDLE, NO_WIN, none,
      some (fun data => { data with cascadeCount := 0, multiplier := 1 })⟩,
    -- From SHOWING_WIN
    ⟨SHOWING_WIN, TUMBLING, WIN_ANIMATION_COMPLETE, none, none⟩,
    -- From TUMBLING
    ⟨TUMBLING, EVALUATING, TUMBLE_COMPLETE, none, none⟩,
    -- From FREE_SPINS_TRIGGER
    ⟨FREE_SPINS_TRIGGER, FREE_SPINS, WIN_ANIMATION_COMPLETE, none,
      some (fun data => { data with isInFreeSpins := true })⟩,
    -- From FREE_SPINS
    ⟨FREE_SPINS, SPINNING, SPIN,
      some (fun data => 0 < data.freeSpinsRemaining),
      some (fun data => { data with
        freeSpinsRemaining := data.freeSpinsRemaining - 1
        cascadeCount := 0 })⟩,
    ⟨FREE_SPINS, IDLE, FREE_SPINS_COMPLETE, none,
      some (fun data => { data with
        isInFreeSpins := false
        freeSpinsRemaining := 0
        balance := data.balance + data.totalWin
        totalWin := 0 })⟩,
    -- Reset from any state
    ⟨IDLE, IDLE, RESET, none, none⟩,
    ⟨SPINNING, IDLE, RESET, none, none⟩,
    ⟨EVALUATING, IDLE, RESET, none, none⟩,
    ⟨TUMBLING, IDLE, RESET, none, none⟩,
    ⟨SHOWING_WIN, IDLE, RESET, none, none⟩,
    ⟨FREE_SPINS_TRIGGER, IDLE, RESET, none, none⟩,
    ⟨FREE_SPINS, IDLE, RESET, none,
      some (fun data => { data with
        isInFreeSpins := false
        freeSpinsRemaining := 0 })⟩,
    ⟨GAME_OVER, IDLE, RESET, none, none⟩ ]

/-- Whether a transition's guard passes on the given data (a missing guard
always passes). -/
def condHolds (t : StateTransition) (data : GameStateData) : Bool :=
  match t.condition with
  | none => true
  | some c => c data

/-- First transition of the list whose guard passes (the `for` loop over
`validTransitions` in `processEvent`). -/
def firstFiring : List StateTransition → GameStateData → Option StateTransition
  | [], _ => none
  | t :: ts, data => if condHolds t data then some t else firstFiring ts data

/-- A listener notification `(previousState, currentState, event)`. -/
abbrev Notification := GameState × GameState × GameEvent

/-- `processEvent`: filter the table on `(from, event)`, fire the first
transition whose guard passes (running its action and notifying listeners),
or reject returning `false` with nothing changed and nobody notified. -/
def processEvent (st : GameState) (data : GameStateData) (ev : GameEvent) :
    Bool × GameState × GameStateData × List Notification :=
  let valid := transitions.filter (fun t => t.src == st && t.event == ev)
  match firstFiring valid data with
  | none => (false, st, data, [])
  | some t =>
    let data' := match t.action with
                 | none => data
                 | some act => act data
    (true, t.dst, data', [(st, t.dst, ev)])

/-- `canSpin()`. -/
def canSpin (st : GameState) (data : GameStateData) : Bool :=
  st == GameState.IDLE ||
    (st == GameState.FREE_SPINS && decide (0 < data.freeSpinsRemaining))

/-! ## Claims C8, C9 (state machine) -/

/-- The action of the IDLE--SPIN--SPINNING transition. -/
def spinDeductAction (d : GameStateData) : GameStateData :=
  { d with balance := d.balance - d.bet, cascadeCount := 0, totalWin := 0,
           multiplier := 1 }

/-! ## Grid evaluator data model (`src/engine/evaluator.ts`) -/

/-- `GridPosition`: 0-indexed column/row pair. -/
structure GridPosition where
  col : ℤ
  row : ℤ
deriving Repr, DecidableEq

/-- `Symbol`: a grid cell's occupant (named `GameSymbol` here; `Symbol` and `Sym`
collide with existing Lean declarations). -/
structure GameSymbol where
  id : String
  position : GridPosition
  isWinning : Option Bool := none
  clusterId : Option ℤ := none
deriving Repr, DecidableEq

/-- `Cluster`: one connected component found by flood fill. -/
structure Cluster where
  id : ℤ
  symbolId : String
  positions : List GridPosition
  size : ℕ
  payout : ℚ
deriving Repr, DecidableEq

/-- One entry of `WinResult.multiplierSymbols`. -/
structure MulSymbol where
  position : GridPosition
  value : ℚ
deriving Repr, DecidableEq

/-- `WinResult`: the outcome of one `evaluateWin` pass. -/
structure WinResult where
  clusters : List Cluster
  totalPayout : ℚ
  multiplier : ℚ
  scatterCount : ℕ
  freeSpinsAwarded : ℚ
  multiplierSymbols : List MulSymbol
deriving Repr, DecidableEq

/-- `PaytableSymbol`: a regular paying symbol's configuration. -/
structure PaytableSymbol where
  id : String
  name : String
  rarity : ℚ
  minCluster : ℕ
  payoutTable : List (ℕ × ℚ)
deriving Repr, DecidableEq

/-- `SpecialSymbol` (scatter / multiplier) configuration. -/
structure SpecialSymbol where
  id : String
  name : String
  rarity : ℚ
  minCount : Option ℕ := none
  freeSpinsTable : Option (List (ℕ × ℚ)) := none
  values : Option (List ℚ) := none
  weights : Option (List ℚ) := none
deriving Repr, DecidableEq

/-- `gameSettings.gridSize`. -/
structure GridSize where
  columns : ℕ
  rows : ℕ
deriving Repr, DecidableEq

/-- `gameSettings`. -/
structure GameSettings where
  gridSize : GridSize
  targetRTP : ℚ
  maxCascades : ℕ
deriving Repr, DecidableEq

/-- `GameConfig` (paytable document). -/
structure GameConfig where
  symbols : List PaytableSymbol
  specialSymbols : List SpecialSymbol
  gameSettings : GameSettings
deriving Repr, DecidableEq

/-- The grid: `this.grid[row][col]`, with `none` for null cells.  Only
in-bounds cells are ever written. -/
abbrev Grid := ℤ → ℤ → Option GameSymbol

/-- Write one grid cell. -/
def gridSet (g : Grid) (row col : ℤ) (v : Option GameSymbol) : Grid :=
  fun r c => if r = row ∧ c = col then v else g r c

/-- `initializeGrid()`: the all-empty grid. -/
def initGrid : Grid := fun _ _ => none

/-- Shorthand for the configured column count as an integer. -/
def gcols (cfg : GameConfig) : ℤ := (cfg.gameSettings.gridSize.columns : ℤ)

/-- Shorthand for the configured row count as an integer. -/
def grows (cfg : GameConfig) : ℤ := (cfg.gameSettings.gridSize.rows : ℤ)

/-- The `"col,row"` key used in the evaluator's visited `Set`. -/
def key (p : GridPosition) : ℤ × ℤ := (p.col, p.row)

/-- In-bounds positions, as a finset of keys. -/
def boundsFinset (cfg : GameConfig) : Finset (ℤ × ℤ) :=
  Finset.Ico 0 (gcols cfg) ×ˢ Finset.Ico 0 (grows cfg)

/-- Row-major list of `(row, col)` cell indices (the iteration order of
`findClusters` / `countScatters` / `findMultiplierSymbols`). -/
def cellsRM (cfg : GameConfig) : List (ℕ × ℕ) :=
  (List.range cfg.gameSettings.gridSize.rows).flatMap fun row =>
    (List.range cfg.gameSettings.gridSize.columns).map fun col => (row, col)

/-- Column-major list of `(col, row)` cell indices (the iteration order of
`fillEmptyPositions`). -/
def cellsCM (cfg : GameConfig) : List (ℕ × ℕ) :=
  (List.range cfg.gameSettings.gridSize.columns).flatMap fun col =>
    (List.range cfg.gameSettings.gridSize.rows).map fun row => (col, row)

/-- The stack-driven loop inside `floodFill`: pop a position; skip it when
already visited, out of bounds, empty, or of a different symbol; otherwise
mark it visited, append it to the cluster's positions, annotate the cell
with the cluster id and push its four neighbours.

The source's `while` loop terminates because every iteration either only
pops, or marks a fresh in-bounds cell visited; `fuel` is an explicit upper
bound on the iteration count (any value above
`5 * (boundsFinset cfg \ visited).card + stack.length` is enough, see
`ffLoop_spec`), which keeps the model structurally recursive and hence
executable. -/
def ffLoop (cfg : GameConfig) (symbolId : String) (cid : ℤ) :
    ℕ → List GridPosition → Grid → Finset (ℤ × ℤ) → List GridPosition →
    List GridPosition × Grid × Finset (ℤ × ℤ)
  | 0, _, grid, visited, acc => (acc, grid, visited)
  | _ + 1, [], grid, visited, acc => (acc, grid, visited)
  | fuel + 1, p :: rest, grid, visited, acc =>
    if key p ∈ visited then ffLoop cfg symbolId cid fuel rest grid visited acc
    else if p.col < 0 ∨ gcols cfg ≤ p.col ∨ p.row < 0 ∨ grows cfg ≤ p.row then
      ffLoop cfg symbolId cid fuel rest grid visited acc
    else
      match grid p.row p.col with
      | none => ffLoop cfg symbolId cid fuel rest grid visited acc
      | some s =>
        if s.id ≠ symbolId then
          ffLoop cfg symbolId cid fuel rest grid visited acc
        else
          ffLoop cfg symbolId cid fuel
            (⟨p.col, p.row + 1⟩ :: ⟨p.col, p.row - 1⟩ ::
             ⟨p.col + 1, p.row⟩ :: ⟨p.col - 1, p.row⟩ :: rest)
            (gridSet grid p.row p.col (some { s with clusterId := some cid }))
            (insert (key p) visited)
            (acc ++ [p])

/-- Enough fuel for `ffLoop` from any start configuration of `floodFill`. -/
def ffFuel (cfg : GameConfig) : ℕ := 5 * (boundsFinset cfg).card + 2

/-- `floodFill(startCol, startRow, visited)`: build one cluster (with the
current cluster-id counter, incremented on a truthy start).  The source
reads `const symbolId = this.grid[startRow][startCol]?.id` and returns the
empty cluster on `if (!symbolId)`: a missing cell (`undefined`) and the
empty-string id are both falsy, so both take the early return, before the
counter increment and without touching `visited` or the grid. -/
def floodFill (cfg : GameConfig) (grid : Grid) (startCol startRow : ℤ)
    (visited : Finset (ℤ × ℤ)) (cid : ℤ) :
    Cluster × Grid × Finset (ℤ × ℤ) × ℤ :=
  match grid startRow startCol with
  | none => (⟨-1, "", [], 0, 0⟩, grid, visited, cid)
  | some s =>
    if s.id = "" then (⟨-1, "", [], 0, 0⟩, grid, visited, cid)
    else
      let r := ffLoop cfg s.id cid (ffFuel cfg) [⟨startCol, startRow⟩] grid
        visited []
      (⟨cid, s.id, r.1, r.1.length, 0⟩, r.2.1, r.2.2, cid + 1)

/-- The row-major scan of `findClusters`. -/
def findClustersLoop (cfg : GameConfig) :
    List (ℕ × ℕ) → Grid → Finset (ℤ × ℤ) → ℤ → List Cluster →
    List Cluster × Grid × Finset (ℤ × ℤ) × ℤ
  | [], grid, visited, cid, acc => (acc, grid, visited, cid)
  | (row, col) :: rest, grid, visited, cid, acc =>
    if ((col : ℤ), (row : ℤ)) ∉ visited ∧ (grid row col).isSome then
      let f := floodFill cfg grid col row visited cid
      if 1 ≤ f.1.positions.length then
        findClustersLoop cfg rest f.2.1 f.2.2.1 f.2.2.2 (acc ++ [f.1])
      else
        findClustersLoop cfg rest f.2.1 f.2.2.1 f.2.2.2 acc
    else
      findClustersLoop cfg rest grid visited cid acc

/-- `findClusters()`, starting from the given cluster-id counter
(`evaluateWin` resets the counter to 0 before calling it). -/
def findClusters (cfg : GameConfig) (grid : Grid) (cid : ℤ) :
    List Cluster × Grid :=
  let r := findClustersLoop cfg (cellsRM cfg) grid ∅ cid []
  (r.1, r.2.1)

/-- `countScatters()`. -/
def countScatters (cfg : GameConfig) (grid : Grid) : ℕ :=
  ((cellsRM cfg).filter fun rc =>
    match grid rc.1 rc.2 with
    | some s => s.id == "scatter"
    | none => false).length

/-- `findMultiplierSymbols()`: draw a weighted value for every multiplier
symbol on the grid (row-major), threading the RNG. -/
def findMultiplierSymbols (cfg : GameConfig) (grid : Grid) (r : RNGState) :
    List MulSymbol × RNGState :=
  match cfg.specialSymbols.find? (fun s => s.id == "multiplier") with
  | none => ([], r)
  | some ms =>
    match ms.values, ms.weights with
    | some vals, some ws =>
      (cellsRM cfg).foldl
        (fun (acc : List MulSymbol × RNGState) rc =>
          match grid rc.1 rc.2 with
          | some s =>
            if s.id == "multiplier" then
              let p := weightedChoice vals ws acc.2
              (acc.1 ++ [⟨⟨(rc.2 : ℤ), (rc.1 : ℤ)⟩, p.1⟩], p.2)
            else acc
          | none => acc)
        ([], r)
    | _, _ => ([], r)

/-- The all-zero `WinResult` used when a spin has no cascades. -/
def zeroWinResult : WinResult := ⟨[], 0, 1, 0, 0, []⟩

/-- The step function of the payout fold in `evaluateWin`. -/
def payStep (cfg : GameConfig) (bet : ℚ) (acc : ℚ × List Cluster)
    (cluster : Cluster) : ℚ × List Cluster :=
  match cfg.symbols.find? (fun s => s.id == cluster.symbolId) with
  | some symbol =>
    if symbol.minCluster ≤ cluster.size then
      let payout := ((symbol.payoutTable.lookup cluster.size).getD 0) * bet
      (acc.1 + payout, acc.2 ++ [{ cluster with payout := payout }])
    else (acc.1, acc.2 ++ [cluster])
  | none => (acc.1, acc.2 ++ [cluster])

/-- `evaluateWin(bet, isFreeSpin)`: find clusters (resetting the cluster-id
counter), count scatters, resolve multiplier symbols (free spins only),
assign cluster payouts and compute the multiplied total. -/
def evaluateWin (cfg : GameConfig) (grid : Grid) (bet : ℚ) (isFreeSpin : Bool)
    (r : RNGState) : WinResult × Grid × RNGState :=
  let fc := findClusters cfg grid 0
  let g1 := fc.2
  let scatterCount := countScatters cfg g1
  let pms := if isFreeSpin then findMultiplierSymbols cfg g1 r else ([], r)
  let pay := fc.1.foldl (payStep cfg bet) (0, [])
  let freeSpinsAwarded : ℚ :=
    if 4 ≤ scatterCount then
      match cfg.specialSymbols.find? (fun s => s.id == "scatter") with
      | some sc =>
        match sc.freeSpinsTable with
        | some tbl => (tbl.lookup scatterCount).getD 0
        | none => 0
      | none => 0
    else 0
  let multiplier : ℚ :=
    if isFreeSpin = true ∧ pms.1 ≠ [] then
      min (pms.1.foldl (fun acc m => acc * m.value) 1) 1000
    else 1
  ({ clusters := pay.2, totalPayout := pay.1 * multiplier,
     multiplier := multiplier, scatterCount := scatterCount,
     freeSpinsAwarded := freeSpinsAwarded, multiplierSymbols := pms.1 },
   g1, pms.2)

/-- `removeWinningSymbols(clusters)`: empty every position referenced by the
given clusters. -/
def removeWinningSymbols (clusters : List Cluster) (g : Grid) : Grid :=
  clusters.foldl
    (fun g cluster =>
      cluster.positions.foldl
        (fun g pos =>
          match g pos.row pos.col with
          | some _ => gridSet g pos.row pos.col none
          | none => g)
        g)
    g

/-- The non-null symbols of one column, collected bottom to top. -/
def columnSymbols (cfg : GameConfig) (g : Grid) (col : ℕ) : List GameSymbol :=
  ((List.range cfg.gameSettings.gridSize.rows).reverse).filterMap
    fun (row : ℕ) => g (row : ℤ) (col : ℤ)

/-- One column's gravity step: clear the column and re-place its symbols
from the bottom up, rewriting their `position` fields. -/
def gravityColumn (cfg : GameConfig) (g : Grid) (col : ℕ) : Grid :=
  let column := columnSymbols cfg g col
  fun r c =>
    if c = (col : ℤ) ∧ 0 ≤ r ∧ r < grows cfg then
      (column.get? (grows cfg - 1 - r).toNat).map
        fun s => { s with position := ⟨(col : ℤ), r⟩ }
    else g r c

/-- `applyGravity()`: drop symbols down, column by column. -/
def applyGravity (cfg : GameConfig) (g : Grid) : Grid :=
  (List.range cfg.gameSettings.gridSize.columns).foldl
    (fun g col => gravityColumn cfg g col) g

/-- `fillEmptyPositions(symbolPool)`: fill every empty cell (column-major)
with a uniformly drawn id from the pool. -/
def fillEmptyPositions (cfg : GameConfig) (symbolPool : List String) (g : Grid)
    (r : RNGState) : Grid × RNGState :=
  (cellsCM cfg).foldl
    (fun (acc : Grid × RNGState) cr =>
      match acc.1 cr.2 cr.1 with
      | some _ => acc
      | none =>
        let p := choice symbolPool acc.2
        (gridSet acc.1 cr.2 cr.1
          (some { id := p.1, position := ⟨(cr.1 : ℤ), (cr.2 : ℤ)⟩ }), p.2))
    (g, r)

/-- `Math.round` (half away from zero rounds up in JS: half toward +∞). -/
def jsRound (q : ℚ) : ℤ := ⌊q + 1 / 2⌋

/-- `generateSymbolPool(volatilityMultipliers?)`: each (regular then
special) symbol contributes `round(rarity × multiplier)` copies of its id.
A missing or zero (falsy) multiplier entry counts as 1. -/
def generateSymbolPool (cfg : GameConfig)
    (volatilityMultipliers : Option (List (String × ℚ))) : List String :=
  let adjusted : String → ℚ → ℕ := fun id rarity =>
    let m : ℚ :=
      match volatilityMultipliers with
      | none => 1
      | some vm =>
        match vm.lookup id with
        | none => 1
        | some q => if q = 0 then 1 else q
    (jsRound (rarity * m)).toNat
  (cfg.symbols.flatMap fun s => List.replicate (adjusted s.id s.rarity) s.id) ++
    (cfg.specialSymbols.flatMap fun s =>
      List.replicate (adjusted s.id s.rarity) s.id)

/-- The cascade loop of one `simulateRTP` spin: evaluate, break when no
clusters, accumulate the payout, remove/drop/refill; returns the win total,
final grid, RNG and the number of cascades performed. -/
def rtpCascades (cfg : GameConfig) (symbolPool : List String) (bet : ℚ) :
    ℕ → Grid → RNGState → ℚ → ℕ → ℚ × Grid × RNGState × ℕ
  | 0, g, r, totalWins, n => (totalWins, g, r, n)
  | fuel + 1, g, r, totalWins, n =>
    let e := evaluateWin cfg g bet false r
    if e.1.clusters.length = 0 then (totalWins, e.2.1, e.2.2, n)
    else
      let g1 := removeWinningSymbols e.1.clusters e.2.1
      let g2 := applyGravity cfg g1
      let f := fillEmptyPositions cfg symbolPool g2 e.2.2
      rtpCascades cfg symbolPool bet fuel f.1 f.2
        (totalWins + e.1.totalPayout) (n + 1)

/-- `simulateRTP(spins, bet)`: independent spins on fresh grids, cascading
up to `maxCascades`; returns the RTP percentage and the final RNG state. -/
def simulateRTP (cfg : GameConfig) (spins : ℕ) (bet : ℚ) (r : RNGState) :
    ℚ × RNGState :=
  let totalBet := (spins : ℚ) * bet
  let final := (List.range spins).foldl
    (fun (acc : ℚ × RNGState) _ =>
      let symbolPool := generateSymbolPool cfg none
      let f := fillEmptyPositions cfg symbolPool initGrid acc.2
      let c := rtpCascades cfg symbolPool bet cfg.gameSettings.maxCascades
        f.1 f.2 0 0
      (acc.1 + c.1, c.2.2.1))
    (0, r)
  (final.1 / totalBet * 100, final.2)

/-! ## Game engine coordinator (`gameEngine.ts`) -/

/-- `SpinResult`. -/
structure SpinResult where
  grid : Grid
  winResult : WinResult
  cascades : List WinResult
  totalWin : ℚ
  newBalance : ℚ
  freeSpinsAwarded : ℚ
  isFreeSpin : Bool
  gameState : GameState

/-- The engine's mutable state: state machine, grid and the global RNG. -/
structure EngineState where
  st : GameState
  data : GameStateData
  grid : Grid
  rng : RNGState

/-- The evaluate/cascade loop of `evaluateAndCascade`.  `sd` is the state
snapshot taken before the loop; `fuel` is `maxCascades - cascades.length`.
Returns the cascade list, summed win and the final machine/grid/RNG. -/
def cascadeLoop (cfg : GameConfig) (volMult : List (String × ℚ))
    (sd : GameStateData) :
    ℕ → GameState → GameStateData → Grid → RNGState → List WinResult → ℚ →
    List WinResult × ℚ × GameState × GameStateData × Grid × RNGState
  | 0, st, d, g, r, cascades, totalWin => (cascades, totalWin, st, d, g, r)
  | fuel + 1, st, d, g, r, cascades, totalWin =>
    let e := evaluateWin cfg g sd.bet sd.isInFreeSpins r
    let winResult := e.1
    if 0 < winResult.clusters.length ∨ 4 ≤ winResult.scatterCount then
      let cascades' := cascades ++ [winResult]
      let totalWin' := totalWin + winResult.totalPayout
      let afterTrigger :=
        if 0 < winResult.freeSpinsAwarded then
          let d1 := { d with freeSpinsRemaining :=
            sd.freeSpinsRemaining + winResult.freeSpinsAwarded }
          let q := processEvent st d1 GameEvent.FREE_SPINS_TRIGGERED
          (q.2.1, q.2.2.1)
        else
          let q := processEvent st d GameEvent.WIN_DETECTED
          (q.2.1, q.2.2.1)
      let q2 := processEvent afterTrigger.1 afterTrigger.2
        GameEvent.WIN_ANIMATION_COMPLETE
      let g1 := removeWinningSymbols winResult.clusters e.2.1
      let g2 := applyGravity cfg g1
      let pool := generateSymbolPool cfg (some volMult)
      let f := fillEmptyPositions cfg pool g2 e.2.2
      let q3 := processEvent q2.2.1 q2.2.2.1 GameEvent.TUMBLE_COMPLETE
      cascadeLoop cfg volMult sd fuel q3.2.1 q3.2.2.1 f.1 f.2 cascades'
        totalWin'
    else
      let q := processEvent st d GameEvent.NO_WIN
      (cascades, totalWin, q.2.1, q.2.2.1, e.2.1, e.2.2)

/-- `evaluateAndCascade()`: snapshot the state data, run the cascade loop,
then merge the winnings (balance only outside free spins) and build the
`SpinResult`. -/
def evaluateAndCascade (cfg : GameConfig) (volMult : List (String × ℚ))
    (st : GameState) (d : GameStateData) (g : Grid) (r : RNGState) :
    SpinResult × EngineState :=
  let sd := d
  let L := cascadeLoop cfg volMult sd cfg.gameSettings.maxCascades st d g r [] 0
  let cascades := L.1
  let totalWin := L.2.1
  let st' := L.2.2.1
  let d' := L.2.2.2.1
  let g' := L.2.2.2.2.1
  let r' := L.2.2.2.2.2
  let newBalance := sd.balance + totalWin
  let d1 := { d' with totalWin := sd.totalWin + totalWin,
                      lastWinAmount := totalWin }
  let d2 := if sd.isInFreeSpins then d1 else { d1 with balance := newBalance }
  ({ grid := g',
     winResult := cascades.headD zeroWinResult,
     cascades := cascades,
     totalWin := totalWin,
     newBalance := if sd.isInFreeSpins then sd.balance else newBalance,
     freeSpinsAwarded :=
       cascades.foldl (fun sum c => sum + c.freeSpinsAwarded) 0,
     isFreeSpin := sd.isInFreeSpins,
     gameState := st' },
   ⟨st', d2, g', r'⟩)

/-- `spin()`: reject when not spinnable, fire `SPIN` (reject on failure),
generate a fresh grid, fire `SPIN_COMPLETE`, then evaluate and cascade. -/
def spin (cfg : GameConfig) (volMult : List (String × ℚ)) (es : EngineState) :
    Option (SpinResult × EngineState) :=
  if canSpin es.st es.data then
    let q := processEvent es.st es.data GameEvent.SPIN
    if q.1 then
      let pool := generateSymbolPool cfg (some volMult)
      let f := fillEmptyPositions cfg pool initGrid es.rng
      let q2 := processEvent q.2.1 q.2.2.1 GameEvent.SPIN_COMPLETE
      some (evaluateAndCascade cfg volMult q2.2.1 q2.2.2.1 f.1 f.2)
    else none
  else none

/-! ## Payout characterization (claims C2, C3) -/

/-- The payout a cluster should earn: `payoutTable[size] × bet` exactly when
the cluster's symbol is in the paytable, its size meets the symbol's
`minCluster` and the table has an entry for that exact size; `0` otherwise. -/
def clusterPayout (cfg : GameConfig) (bet : ℚ) (c : Cluster) : ℚ :=
  match cfg.symbols.find? (fun s => s.id == c.symbolId) with
  | some symbol =>
    if symbol.minCluster ≤ c.size then
      match symbol.payoutTable.lookup c.size with
      | some entry => entry * bet
      | none => 0
    else 0
  | none => 0

/-- Whether a cluster's symbol is in the paytable and the cluster meets its
`minCluster` (the guard of the payout loop in `evaluateWin`). -/
def meetsMin (cfg : GameConfig) (c : Cluster) : Bool :=
  match cfg.symbols.find? (fun s => s.id == c.symbolId) with
  | some symbol => symbol.minCluster ≤ c.size
  | none => false

/-! ## Flood-fill partition (claim C4) -/

/-- 4-directional adjacency of grid positions. -/
def adjacent (p q : GridPosition) : Prop :=
  (p.col = q.col ∧ (q.row = p.row + 1 ∨ q.row = p.row - 1)) ∨
  (p.row = q.row ∧ (q.col = p.col + 1 ∨ q.col = p.col - 1))

instance (p q : GridPosition) : Decidable (adjacent p q) := by
  unfold adjacent; infer_instance

/-- 4-connectivity within a list of positions. -/
def reachIn (l : List GridPosition) (p q : GridPosition) : Prop :=
  Relation.ReflTransGen (fun a b => a ∈ l ∧ b ∈ l ∧ adjacent a b) p q

/-- A position lies in the configured grid bounds. -/
def inBp (cfg : GameConfig) (p : GridPosition) : Prop :=
  0 ≤ p.col ∧ p.col < gcols cfg ∧ 0 ≤ p.row ∧ p.row < grows cfg

/-- The symbol id held at a position. -/
def idAtP (g : Grid) (p : GridPosition) : Option String :=
  (g p.row p.col).map GameSymbol.id

/-- Two grids holding the same symbol ids (and hence occupancy) everywhere;
flood fill only rewrites `clusterId` annotations, which this ignores. -/
def gridSim (g g' : Grid) : Prop :=
  ∀ r c, (g' r c).map GameSymbol.id = (g r c).map GameSymbol.id

/-- In-bounds occupied cells of a grid, as a finset of `(col,row)` keys. -/
def occKeys (cfg : GameConfig) (g : Grid) : Finset (ℤ × ℤ) :=
  (boundsFinset cfg).filter fun k => (g k.2 k.1).isSome

/-- JS truthiness of a cell's symbol id: the cell holds a symbol whose id
is a non-empty string.  `floodFill`'s `if (!symbolId)` early return fires
both on a missing cell (`undefined`) and on an empty-string id, so only
cells satisfying this predicate are ever clustered. -/
def truthyAt (g : Grid) (r c : ℤ) : Prop :=
  ((g r c).map GameSymbol.id).getD "" ≠ ""

instance (g : Grid) (r c : ℤ) : Decidable (truthyAt g r c) := by
  unfold truthyAt; infer_instance

/-- In-bounds cells holding a truthy (non-empty) symbol id. -/
def occTKeys (cfg : GameConfig) (g : Grid) : Finset (ℤ × ℤ) :=
  (boundsFinset cfg).filter fun k => truthyAt g k.2 k.1

/-- Well-formedness of one flood-fill cluster with respect to the grid it
was computed from: non-empty, duplicate-free, sized correctly, in bounds,
id-homogeneous and pairwise 4-connected. -/
def clusterOK (cfg : GameConfig) (g0 : Grid) (c : Cluster) : Prop :=
  c.positions ≠ [] ∧
  (c.positions.map key).Nodup ∧
  c.size = c.positions.length ∧
  (∀ p ∈ c.positions, inBp cfg p ∧ idAtP g0 p = some c.symbolId) ∧
  (∀ p ∈ c.positions, ∀ q ∈ c.positions, reachIn c.positions p q)

/-- A 1×1 configuration with no configured symbols, used to exhibit the
falsy-id behaviour of `floodFill` on concrete grids. -/
def cfgE : GameConfig :=
  { symbols := []
    specialSymbols := []
    gameSettings := { gridSize := { columns := 1, rows := 1 },
                      targetRTP := 96, maxCascades := 2 } }

def rngE : RNGState := ⟨1, 2, 3, 4⟩

/-- A 1×1 grid whose single cell holds a symbol with the empty-string id:
occupied, but falsy for `floodFill`'s `if (!symbolId)` test. -/
def gE : Grid := gridSet initGrid 0 0 (some { id := "", position := ⟨0, 0⟩ })

/-- Configuration for the free-spin counter counterexample: a 2×2 grid
whose only symbol is the scatter, `freeSpinsTable = {4: 5}` and two
cascades, so both cascades award 5 free spins. -/
def cfgC10 : GameConfig :=
  { symbols := []
    specialSymbols := [{ id := "scatter", name := "Scatter", rarity := 1,
                         freeSpinsTable := some [(4, 5)] }]
    gameSettings := { gridSize := { columns := 2, rows := 2 },
                      targetRTP := 96, maxCascades := 2 } }

def esC10 : EngineState :=
  { st := GameState.IDLE
    data := ⟨10, 1, 0, 0, 0, false, 1, 0, 0, 0, false, false, 0, 0⟩
    grid := initGrid
    rng := ⟨1, 2, 3, 4⟩ }

def pairC10dflt : SpinResult × EngineState :=
  (⟨initGrid, zeroWinResult, [], 0, 0, 0, false, GameState.IDLE⟩, esC10)

/-! ## Theorems -/

/-! ## Claim C1 -/

/-- Claim C1: Seeding is a pure function of the seed: a freshly constructed
`SeededRNG(S)` and any existing generator after `setSeed(S)` hold identical
internal state words, hence identical `next()` output sequences of every
length. -/
theorem seeding_pure (r : RNGState) (seedStr : List ℕ) :
    setSeed r seedStr = mkSeededRNG seedStr ∧
    ∀ n : ℕ, nextStream (setSeed r seedStr) n = nextStream (mkSeededRNG seedStr) n := by
  refine ⟨rfl, fun n => rfl⟩

/-- Claim C8: processing `SPIN` in `IDLE` deterministically yields exactly
one of two outcomes: with `balance ≥ bet` it moves to `SPINNING`, deducting
the bet and resetting `cascadeCount`, `totalWin`, `multiplier`; with
`balance < bet` it moves to `GAME_OVER` with the state data unchanged. -/
theorem idle_spin_dichotomy (d : GameStateData) :
    (d.bet ≤ d.balance →
      processEvent GameState.IDLE d GameEvent.SPIN =
        (true, GameState.SPINNING, spinDeductAction d,
         [(GameState.IDLE, GameState.SPINNING, GameEvent.SPIN)])) ∧
    (d.balance < d.bet →
      processEvent GameState.IDLE d GameEvent.SPIN =
        (true, GameState.GAME_OVER, d,
         [(GameState.IDLE, GameState.GAME_OVER, GameEvent.SPIN)])) := by
  constructor
  · intro h
    simp [processEvent, transitions, firstFiring, condHolds, decide_eq_true h,
      spinDeductAction]
  · intro h
    have h' : ¬ d.bet ≤ d.balance := not_le.mpr h
    simp [processEvent, transitions, firstFiring, condHolds, h, h',
      spinDeductAction]

/-- Claim C8 witness. -/
theorem idle_spin_dichotomy_witness :
    ((10 : ℚ) ≤ 100 ∧
      processEvent GameState.IDLE
        ⟨100, 10, 0, 0, 0, false, 1, 0, 0, 0, false, false, 0, 0⟩ GameEvent.SPIN =
        (true, GameState.SPINNING,
         spinDeductAction ⟨100, 10, 0, 0, 0, false, 1, 0, 0, 0, false, false, 0, 0⟩,
         [(GameState.IDLE, GameState.SPINNING, GameEvent.SPIN)])) ∧
    ((3 : ℚ) < 10 ∧
      processEvent GameState.IDLE
        ⟨3, 10, 0, 0, 0, false, 1, 0, 0, 0, false, false, 0, 0⟩ GameEvent.SPIN =
        (true, GameState.GAME_OVER,
         ⟨3, 10, 0, 0, 0, false, 1, 0, 0, 0, false, false, 0, 0⟩,
         [(GameState.IDLE, GameState.GAME_OVER, GameEvent.SPIN)])) :=
  ⟨⟨by norm_num,
    (idle_spin_dichotomy ⟨100, 10, 0, 0, 0, false, 1, 0, 0, 0, false, false, 0, 0⟩).1
      (by norm_num)⟩,
   ⟨by norm_num,
    (idle_spin_dichotomy ⟨3, 10, 0, 0, 0, false, 1, 0, 0, 0, false, false, 0, 0⟩).2
      (by norm_num)⟩⟩

/-- If every guard in a list fails, no transition fires. -/
theorem firstFiring_eq_none (l : List StateTransition) (d : GameStateData)
    (h : ∀ t ∈ l, condHolds t d = false) : firstFiring l d = none := by
  induction l with
  | nil => rfl
  | cons t ts ih =>
    simp only [firstFiring]
    rw [h t (List.mem_cons_self t ts)]
    simp only [Bool.false_eq_true, if_false]
    exact ih fun t ht => h t (List.mem_cons_of_mem _ ht)

/-- Claim C9: an event with no matching transition rule from the current
state (or none whose guard passes) is rejected: `processEvent` returns
`false`, the state and state data are unchanged, and no listener is
notified; the model is a total function, so rejection is never fatal. -/
theorem invalid_event_noop (st : GameState) (d : GameStateData) (ev : GameEvent)
    (h : ∀ t ∈ transitions, t.src = st → t.event = ev → condHolds t d = false) :
    processEvent st d ev = (false, st, d, []) := by
  have hnone :
      firstFiring (transitions.filter (fun t => t.src == st && t.event == ev)) d
        = none := by
    apply firstFiring_eq_none
    intro t ht
    have hmem := List.mem_filter.mp ht
    have hfe := hmem.2
    simp only [Bool.and_eq_true, beq_iff_eq] at hfe
    exact h t hmem.1 hfe.1 hfe.2
  simp only [processEvent, hnone]

/-- Claim C9 witness: firing `TUMBLE_COMPLETE` from `IDLE` is a no-op. -/
theorem invalid_event_noop_witness :
    processEvent GameState.IDLE
      ⟨100, 10, 0, 0, 0, false, 1, 0, 0, 0, false, false, 0, 0⟩
      GameEvent.TUMBLE_COMPLETE =
    (false, GameState.IDLE,
      ⟨100, 10, 0, 0, 0, false, 1, 0, 0, 0, false, false, 0, 0⟩, []) :=
  invalid_event_noop _ _ _ (by decide)

theorem payStep_fst (cfg : GameConfig) (bet : ℚ) (acc : ℚ × List Cluster)
    (c : Cluster) : (payStep cfg bet acc c).1 = acc.1 + clusterPayout cfg bet c := by
  unfold payStep clusterPayout
  cases cfg.symbols.find? (fun s => s.id == c.symbolId) with
  | none => simp
  | some symbol =>
    by_cases h : symbol.minCluster ≤ c.size
    · simp only [if_pos h]
      cases symbol.payoutTable.lookup c.size <;> simp
    · simp [if_neg h]

theorem payStep_snd (cfg : GameConfig) (bet : ℚ) (acc : ℚ × List Cluster)
    (c : Cluster) (hc : c.payout = 0) :
    (payStep cfg bet acc c).2 =
      acc.2 ++ [{ c with payout := clusterPayout cfg bet c }] := by
  unfold payStep clusterPayout
  cases cfg.symbols.find? (fun s => s.id == c.symbolId) with
  | none =>
    simp only []
    rw [show { c with payout := 0 } = c from by cases c; simp_all]
  | some symbol =>
    by_cases h : symbol.minCluster ≤ c.size
    · simp only [if_pos h]
      cases symbol.payoutTable.lookup c.size <;> simp
    · simp only [if_neg h]
      rw [show { c with payout := 0 } = c from by cases c; simp_all]

theorem payFold_spec (cfg : GameConfig) (bet : ℚ) (l : List Cluster)
    (h0 : ∀ c ∈ l, c.payout = 0) :
    ∀ acc : ℚ × List Cluster,
      (l.foldl (payStep cfg bet) acc).1 =
          acc.1 + (l.map (clusterPayout cfg bet)).sum ∧
      (l.foldl (payStep cfg bet) acc).2 =
          acc.2 ++ l.map (fun c => { c with payout := clusterPayout cfg bet c }) := by
  induction l with
  | nil => intro acc; simp
  | cons c t ih =>
    intro acc
    have hc := h0 c (List.mem_cons_self c t)
    have ht : ∀ x ∈ t, x.payout = 0 := fun x hx => h0 x (List.mem_cons_of_mem _ hx)
    have step1 := payStep_fst cfg bet acc c
    have step2 := payStep_snd cfg bet acc c hc
    have ihs := (ih ht) (payStep cfg bet acc c)
    constructor
    · rw [List.foldl_cons, ihs.1, step1]
      simp [add_assoc]
    · rw [List.foldl_cons, ihs.2, step2]
      simp

/-- A cluster failing `meetsMin` earns zero. -/
theorem clusterPayout_eq_zero_of_not_meetsMin (cfg : GameConfig) (bet : ℚ)
    (c : Cluster) (h : meetsMin cfg c = false) : clusterPayout cfg bet c = 0 := by
  unfold clusterPayout
  unfold meetsMin at h
  cases hf : cfg.symbols.find? (fun s => s.id == c.symbolId) with
  | none => rfl
  | some symbol =>
    rw [hf] at h
    simp only [decide_eq_false_iff_not] at h
    simp [if_neg h]

/-- `meetsMin` ignores the payout field. -/
theorem meetsMin_payout_update (cfg : GameConfig) (c : Cluster) (q : ℚ) :
    meetsMin cfg { c with payout := q } = meetsMin cfg c := rfl

/-- Summing payouts over the clusters meeting their minimum equals summing
`clusterPayout` over all clusters (the others pay zero). -/
theorem sum_filter_meetsMin (cfg : GameConfig) (bet : ℚ) (l : List Cluster) :
    (((l.map fun c => { c with payout := clusterPayout cfg bet c }).filter
        (meetsMin cfg)).map Cluster.payout).sum =
      (l.map (clusterPayout cfg bet)).sum := by
  induction l with
  | nil => rfl
  | cons c t ih =>
    simp only [List.map_cons, List.filter_cons]
    rw [meetsMin_payout_update]
    cases h : meetsMin cfg c with
    | true => simp [ih]
    | false =>
      simp [ih, clusterPayout_eq_zero_of_not_meetsMin cfg bet c h]

/-- Clusters built by `floodFill` always carry `payout = 0` and
`size = positions.length`. -/
theorem floodFill_basic (cfg : GameConfig) (g : Grid) (col row : ℤ)
    (v : Finset (ℤ × ℤ)) (cid : ℤ) :
    (floodFill cfg g col row v cid).1.payout = 0 ∧
    (floodFill cfg g col row v cid).1.size =
      (floodFill cfg g col row v cid).1.positions.length := by
  unfold floodFill
  cases g row col with
  | none => simp
  | some s => by_cases h : s.id = "" <;> simp [h]

/-- All clusters produced by the `findClusters` scan carry `payout = 0` and
`size = positions.length`. -/
theorem findClustersLoop_basic (cfg : GameConfig) :
    ∀ (cells : List (ℕ × ℕ)) (g : Grid) (v : Finset (ℤ × ℤ)) (cid : ℤ)
      (acc : List Cluster),
      (∀ c ∈ acc, c.payout = 0 ∧ c.size = c.positions.length) →
      ∀ c ∈ (findClustersLoop cfg cells g v cid acc).1,
        c.payout = 0 ∧ c.size = c.positions.length := by
  intro cells
  induction cells with
  | nil => intro g v cid acc hacc c hc; exact hacc c hc
  | cons rc rest ih =>
    intro g v cid acc hacc c hc
    obtain ⟨row, col⟩ := rc
    rw [findClustersLoop] at hc
    by_cases hguard : ((col : ℤ), (row : ℤ)) ∉ v ∧ (g row col).isSome
    · rw [if_pos hguard] at hc
      by_cases hlen : 1 ≤ (floodFill cfg g col row v cid).1.positions.length
      · rw [if_pos hlen] at hc
        refine ih _ _ _ _ ?_ c hc
        intro c' hc'
        rcases List.mem_append.mp hc' with h | h
        · exact hacc c' h
        · rcases List.mem_singleton.mp h with rfl
          exact floodFill_basic cfg g col row v cid
      · rw [if_neg hlen] at hc
        exact ih _ _ _ _ hacc c hc
    · rw [if_neg hguard] at hc
      exact ih _ _ _ _ hacc c hc

theorem findClusters_basic (cfg : GameConfig) (g : Grid) (cid : ℤ) :
    ∀ c ∈ (findClusters cfg g cid).1, c.payout = 0 ∧ c.size = c.positions.length :=
  findClustersLoop_basic cfg (cellsRM cfg) g ∅ cid [] (by simp)

/-- `evaluateWin`'s cluster list is the flood-fill cluster list with each
cluster's payout set to `clusterPayout`. -/
theorem evaluateWin_clusters_eq (cfg : GameConfig) (grid : Grid) (bet : ℚ)
    (fs : Bool) (r : RNGState) :
    (evaluateWin cfg grid bet fs r).1.clusters =
      (findClusters cfg grid 0).1.map
        (fun c => { c with payout := clusterPayout cfg bet c }) := by
  have h0 : ∀ c ∈ (findClusters cfg grid 0).1, c.payout = 0 :=
    fun c hc => (findClusters_basic cfg grid 0 c hc).1
  have := (payFold_spec cfg bet (findClusters cfg grid 0).1 h0 (0, [])).2
  simp only [evaluateWin]
  simpa using this

/-- `evaluateWin`'s total payout is the multiplier times the sum of the
per-cluster payouts. -/
theorem evaluateWin_totalPayout_eq (cfg : GameConfig) (grid : Grid) (bet : ℚ)
    (fs : Bool) (r : RNGState) :
    (evaluateWin cfg grid bet fs r).1.totalPayout =
      ((findClusters cfg grid 0).1.map (clusterPayout cfg bet)).sum *
        (evaluateWin cfg grid bet fs r).1.multiplier := by
  have h0 : ∀ c ∈ (findClusters cfg grid 0).1, c.payout = 0 :=
    fun c hc => (findClusters_basic cfg grid 0 c hc).1
  have h := (payFold_spec cfg bet (findClusters cfg grid 0).1 h0 (0, [])).1
  simp only [zero_add] at h
  simp only [evaluateWin]
  rw [h]

/-- `clusterPayout` ignores the payout field. -/
theorem clusterPayout_payout_update (cfg : GameConfig) (bet : ℚ) (c : Cluster)
    (q : ℚ) : clusterPayout cfg bet { c with payout := q } =
      clusterPayout cfg bet c := rfl

/-- Claim C2: `evaluateWin` sets each returned cluster's payout to
`payoutTable[size] × bet` exactly when the cluster's size meets its symbol's
`minCluster` and the paytable has an entry for that exact size (otherwise
the cluster is still included with payout 0), and `totalPayout` equals
`multiplier ×` the sum of the payouts of the clusters meeting their
minimum size. -/
theorem payout_exactness (cfg : GameConfig) (grid : Grid) (bet : ℚ)
    (isFreeSpin : Bool) (r : RNGState) :
    (∀ c ∈ (evaluateWin cfg grid bet isFreeSpin r).1.clusters,
        c.payout = clusterPayout cfg bet c) ∧
    (evaluateWin cfg grid bet isFreeSpin r).1.totalPayout =
      (evaluateWin cfg grid bet isFreeSpin r).1.multiplier *
        ((((evaluateWin cfg grid bet isFreeSpin r).1.clusters.filter
            (meetsMin cfg)).map Cluster.payout).sum) := by
  constructor
  · intro c hc
    rw [evaluateWin_clusters_eq] at hc
    obtain ⟨c0, hc0, rfl⟩ := List.mem_map.mp hc
    simp [clusterPayout_payout_update]
  · rw [evaluateWin_clusters_eq, evaluateWin_totalPayout_eq,
      sum_filter_meetsMin, mul_comm]

/-- Outside free spins `evaluateWin` skips the multiplier search entirely:
multiplier 1, no multiplier symbols, RNG untouched. -/
theorem evaluateWin_not_free_spin (cfg : GameConfig) (grid : Grid) (bet : ℚ)
    (r : RNGState) :
    (evaluateWin cfg grid bet false r).1.multiplier = 1 ∧
    (evaluateWin cfg grid bet false r).1.multiplierSymbols = [] ∧
    (evaluateWin cfg grid bet false r).2.2 = r := by
  simp [evaluateWin]

/-- In free spins the multiplier is the product of the drawn multiplier
values, clamped at 1000. -/
theorem evaluateWin_free_spin_multiplier (cfg : GameConfig) (grid : Grid)
    (bet : ℚ) (r : RNGState) :
    (evaluateWin cfg grid bet true r).1.multiplier =
      min (((evaluateWin cfg grid bet true r).1.multiplierSymbols.map
        MulSymbol.value).foldl (· * ·) 1) 1000 := by
  simp only [evaluateWin, List.foldl_map]
  by_cases h : (findMultiplierSymbols cfg (findClusters cfg grid 0).2 r).1 = []
  · simp [h]
  · simp [h]

/-- Claim C3: when `isFreeSpin` is false, `evaluateWin` returns
multiplier 1 and an empty `multiplierSymbols` list with the RNG untouched
(the multiplier search is never performed); when `isFreeSpin` is true, the
multiplier is the product of the randomly drawn values of the multiplier
symbols on the grid, clamped to at most 1000, and `totalPayout` is the
cluster payout sum scaled by that clamped multiplier. -/
theorem multiplier_free_spins_only (cfg : GameConfig) (grid : Grid) (bet : ℚ)
    (r : RNGState) :
    ((evaluateWin cfg grid bet false r).1.multiplier = 1 ∧
     (evaluateWin cfg grid bet false r).1.multiplierSymbols = [] ∧
     (evaluateWin cfg grid bet false r).2.2 = r) ∧
    ((evaluateWin cfg grid bet true r).1.multiplier =
        min (((evaluateWin cfg grid bet true r).1.multiplierSymbols.map
          MulSymbol.value).foldl (· * ·) 1) 1000 ∧
     (evaluateWin cfg grid bet true r).1.multiplier ≤ 1000 ∧
     (evaluateWin cfg grid bet true r).1.totalPayout =
       ((((evaluateWin cfg grid bet true r).1.clusters.filter
           (meetsMin cfg)).map Cluster.payout).sum) *
         (evaluateWin cfg grid bet true r).1.multiplier) := by
  refine ⟨evaluateWin_not_free_spin cfg grid bet r, ?_, ?_, ?_⟩
  · exact evaluateWin_free_spin_multiplier cfg grid bet r
  · rw [evaluateWin_free_spin_multiplier cfg grid bet r]
    exact min_le_right _ _
  · rw [evaluateWin_clusters_eq, evaluateWin_totalPayout_eq,
      sum_filter_meetsMin]

theorem gridSim_refl (g : Grid) : gridSim g g := fun _ _ => rfl

theorem gridSim_trans {g₁ g₂ g₃ : Grid} (h₁ : gridSim g₁ g₂)
    (h₂ : gridSim g₂ g₃) : gridSim g₁ g₃ :=
  fun r c => (h₂ r c).trans (h₁ r c)

theorem gridSim_idAtP {g g' : Grid} (h : gridSim g g') (p : GridPosition) :
    idAtP g' p = idAtP g p := h p.row p.col

theorem gridSim_isSome {g g' : Grid} (h : gridSim g g') (r c : ℤ) :
    (g' r c).isSome = (g r c).isSome := by
  have := h r c
  cases hg : g r c <;> cases hg' : g' r c <;> simp_all

theorem adjacent_symm {p q : GridPosition} (h : adjacent p q) : adjacent q p := by
  rcases h with ⟨hc, hr | hr⟩ | ⟨hr, hc | hc⟩
  · exact Or.inl ⟨hc.symm, Or.inr (by omega)⟩
  · exact Or.inl ⟨hc.symm, Or.inl (by omega)⟩
  · exact Or.inr ⟨hr.symm, Or.inr (by omega)⟩
  · exact Or.inr ⟨hr.symm, Or.inl (by omega)⟩

theorem reachIn_mono {l l' : List GridPosition} {p q : GridPosition}
    (hsub : ∀ x ∈ l, x ∈ l') (h : reachIn l p q) : reachIn l' p q :=
  Relation.ReflTransGen.mono
    (fun a b hab => ⟨hsub a hab.1, hsub b hab.2.1, hab.2.2⟩) h

theorem reachIn_symm {l : List GridPosition} {p q : GridPosition}
    (h : reachIn l p q) : reachIn l q p := by
  have hs : Symmetric (fun a b => a ∈ l ∧ b ∈ l ∧ adjacent a b) :=
    fun a b hab => ⟨hab.2.1, hab.1, adjacent_symm hab.2.2⟩
  exact Relation.ReflTransGen.symmetric hs h

/-- Appending a point adjacent to a member keeps a position list pairwise
connected. -/
theorem reach_append_point (acc : List GridPosition) (p : GridPosition)
    (hconn : ∀ x ∈ acc, ∀ y ∈ acc, reachIn acc x y)
    (hlink : acc = [] ∨ ∃ q ∈ acc, adjacent q p) :
    ∀ x ∈ acc ++ [p], ∀ y ∈ acc ++ [p], reachIn (acc ++ [p]) x y := by
  rcases hlink with rfl | ⟨q, hq, hadj⟩
  · intro x hx y hy
    simp only [List.nil_append, List.mem_singleton] at hx hy
    subst hx; subst hy
    exact Relation.ReflTransGen.refl
  · have hsub : ∀ x ∈ acc, x ∈ acc ++ [p] := fun x hx => List.mem_append_left _ hx
    have hpmem : p ∈ acc ++ [p] := List.mem_append_right _ (List.mem_singleton_self p)
    have hqp : reachIn (acc ++ [p]) q p :=
      Relation.ReflTransGen.single ⟨hsub q hq, hpmem, hadj⟩
    intro x hx y hy
    rcases List.mem_append.mp hx with hx' | hx' <;>
      rcases List.mem_append.mp hy with hy' | hy'
    · exact reachIn_mono hsub (hconn x hx' y hy')
    · rcases List.mem_singleton.mp hy' with rfl
      exact (reachIn_mono hsub (hconn x hx' q hq)).trans hqp
    · rcases List.mem_singleton.mp hx' with rfl
      exact reachIn_symm ((reachIn_mono hsub (hconn y hy' q hq)).trans hqp)
    · rcases List.mem_singleton.mp hx' with rfl
      rcases List.mem_singleton.mp hy' with rfl
      exact Relation.ReflTransGen.refl

theorem ffLoop_skip_visited (cfg : GameConfig) (sid : String) (cid : ℤ)
    (fuel : ℕ) (p : GridPosition) (rest : List GridPosition) (grid : Grid)
    (visited : Finset (ℤ × ℤ)) (acc : List GridPosition)
    (h : key p ∈ visited) :
    ffLoop cfg sid cid (fuel + 1) (p :: rest) grid visited acc =
      ffLoop cfg sid cid fuel rest grid visited acc := by
  rw [ffLoop]
  simp [h]

theorem ffLoop_skip_oob (cfg : GameConfig) (sid : String) (cid : ℤ)
    (fuel : ℕ) (p : GridPosition) (rest : List GridPosition) (grid : Grid)
    (visited : Finset (ℤ × ℤ)) (acc : List GridPosition)
    (h : key p ∉ visited)
    (hb : p.col < 0 ∨ gcols cfg ≤ p.col ∨ p.row < 0 ∨ grows cfg ≤ p.row) :
    ffLoop cfg sid cid (fuel + 1) (p :: rest) grid visited acc =
      ffLoop cfg sid cid fuel rest grid visited acc := by
  rw [ffLoop]
  simp [h, hb]

theorem ffLoop_skip_none (cfg : GameConfig) (sid : String) (cid : ℤ)
    (fuel : ℕ) (p : GridPosition) (rest : List GridPosition) (grid : Grid)
    (visited : Finset (ℤ × ℤ)) (acc : List GridPosition)
    (h : key p ∉ visited)
    (hb : ¬(p.col < 0 ∨ gcols cfg ≤ p.col ∨ p.row < 0 ∨ grows cfg ≤ p.row))
    (hg : grid p.row p.col = none) :
    ffLoop cfg sid cid (fuel + 1) (p :: rest) grid visited acc =
      ffLoop cfg sid cid fuel rest grid visited acc := by
  rw [ffLoop]
  simp [h, hb, hg]

theorem ffLoop_skip_mismatch (cfg : GameConfig) (sid : String) (cid : ℤ)
    (fuel : ℕ) (p : GridPosition) (rest : List GridPosition) (grid : Grid)
    (visited : Finset (ℤ × ℤ)) (acc : List GridPosition)
    (h : key p ∉ visited)
    (hb : ¬(p.col < 0 ∨ gcols cfg ≤ p.col ∨ p.row < 0 ∨ grows cfg ≤ p.row))
    (s : GameSymbol) (hg : grid p.row p.col = some s) (hid : s.id ≠ sid) :
    ffLoop cfg sid cid (fuel + 1) (p :: rest) grid visited acc =
      ffLoop cfg sid cid fuel rest grid visited acc := by
  rw [ffLoop]
  simp [h, hb, hg, hid]

theorem ffLoop_step_eq (cfg : GameConfig) (sid : String) (cid : ℤ)
    (fuel : ℕ) (p : GridPosition) (rest : List GridPosition) (grid : Grid)
    (visited : Finset (ℤ × ℤ)) (acc : List GridPosition)
    (h : key p ∉ visited)
    (hb : ¬(p.col < 0 ∨ gcols cfg ≤ p.col ∨ p.row < 0 ∨ grows cfg ≤ p.row))
    (s : GameSymbol) (hg : grid p.row p.col = some s) (hid : s.id = sid) :
    ffLoop cfg sid cid (fuel + 1) (p :: rest) grid visited acc =
      ffLoop cfg sid cid fuel
        (⟨p.col, p.row + 1⟩ :: ⟨p.col, p.row - 1⟩ ::
         ⟨p.col + 1, p.row⟩ :: ⟨p.col - 1, p.row⟩ :: rest)
        (gridSet grid p.row p.col (some { s with clusterId := some cid }))
        (insert (key p) visited)
        (acc ++ [p]) := by
  rw [ffLoop]
  simp [h, hb, hg, hid]

/-- Tail of a stack satisfying the flood-fill stack invariant. -/
theorem stackInv_tail {acc : List GridPosition} {p : GridPosition}
    {rest : List GridPosition}
    (hstk : ∀ s ∈ p :: rest,
      (∃ q ∈ acc, adjacent q s) ∨ (acc = [] ∧ p :: rest = [s])) :
    ∀ s ∈ rest, (∃ q ∈ acc, adjacent q s) ∨ (acc = [] ∧ rest = [s]) := by
  intro s hs
  rcases hstk s (List.mem_cons_of_mem p hs) with h | ⟨_, hl⟩
  · exact Or.inl h
  · exfalso
    have hrest : rest = [] := (List.cons.injEq p rest s []).mp hl |>.2
    rw [hrest] at hs
    exact (List.not_mem_nil s) hs

/-- Writing a cluster-id annotation preserves symbol ids everywhere. -/
theorem gridSim_annotate (grid : Grid) (row col : ℤ) (s : GameSymbol)
    (hg : grid row col = some s) (cid : ℤ) :
    gridSim grid (gridSet grid row col (some { s with clusterId := some cid })) := by
  intro r c
  unfold gridSet
  by_cases h : r = row ∧ c = col
  · rw [if_pos h, h.1, h.2, hg]
    rfl
  · rw [if_neg h]

theorem ffLoop_nil (cfg : GameConfig) (sid : String) (cid : ℤ) (fuel : ℕ)
    (grid : Grid) (visited : Finset (ℤ × ℤ)) (acc : List GridPosition) :
    ffLoop cfg sid cid (fuel + 1) [] grid visited acc = (acc, grid, visited)
    := by
  rw [ffLoop]

/-- Master invariant of the flood-fill loop: given enough fuel (more than
the loop's decreasing measure, so the bail-out is never hit), and starting
from an accumulated position list that is visited, duplicate-free, in
bounds, matching the cluster's symbol id and pairwise connected, and a
stack whose entries are adjacent to accumulated positions (or a lone
start), the loop extends the accumulator by fresh positions only, marks
exactly those visited, keeps everything in bounds with the right id and
pairwise connected, and only rewrites cluster-id annotations on the grid. -/
theorem ffLoop_spec (cfg : GameConfig) (sid : String) (cid : ℤ) :
    ∀ (fuel : ℕ) (stack : List GridPosition) (grid : Grid)
      (visited : Finset (ℤ × ℤ)) (acc : List GridPosition),
      5 * (boundsFinset cfg \ visited).card + stack.length < fuel →
      (∀ p ∈ acc, key p ∈ visited) →
      (acc.map key).Nodup →
      (∀ p ∈ acc, inBp cfg p ∧ idAtP grid p = some sid) →
      (∀ p ∈ acc, ∀ q ∈ acc, reachIn acc p q) →
      (∀ s ∈ stack, (∃ q ∈ acc, adjacent q s) ∨ (acc = [] ∧ stack = [s])) →
      ∃ ext : List GridPosition,
        (ffLoop cfg sid cid fuel stack grid visited acc).1 = acc ++ ext ∧
        (∀ p ∈ ext, key p ∉ visited) ∧
        (ffLoop cfg sid cid fuel stack grid visited acc).2.2 =
          visited ∪ (ext.map key).toFinset ∧
        ((acc ++ ext).map key).Nodup ∧
        (∀ p ∈ acc ++ ext, inBp cfg p ∧ idAtP grid p = some sid) ∧
        (∀ p ∈ acc ++ ext, ∀ q ∈ acc ++ ext, reachIn (acc ++ ext) p q) ∧
        gridSim grid (ffLoop cfg sid cid fuel stack grid visited acc).2.1 := by
  intro fuel
  induction fuel with
  | zero =>
    intro stack grid visited acc hfuel
    exact absurd hfuel (Nat.not_lt_zero _)
  | succ fuel ih =>
    intro stack grid visited acc hfuel h1 h2 h3 h4 h5
    cases stack with
    | nil =>
      refine ⟨[], ?_, ?_, ?_, ?_, ?_, ?_, ?_⟩
      · rw [ffLoop_nil]; simp
      · simp
      · rw [ffLoop_nil]; simp
      · simpa using h2
      · simpa using h3
      · simpa using h4
      · rw [ffLoop_nil]; exact gridSim_refl grid
    | cons p rest =>
      have hfuel' : 5 * (boundsFinset cfg \ visited).card + rest.length <
          fuel := by
        simp only [List.length_cons] at hfuel
        omega
      by_cases hvis : key p ∈ visited
      · rw [ffLoop_skip_visited cfg sid cid fuel p rest grid visited acc hvis]
        exact ih rest grid visited acc hfuel' h1 h2 h3 h4 (stackInv_tail h5)
      · by_cases hb : p.col < 0 ∨ gcols cfg ≤ p.col ∨ p.row < 0 ∨
            grows cfg ≤ p.row
        · rw [ffLoop_skip_oob cfg sid cid fuel p rest grid visited acc hvis hb]
          exact ih rest grid visited acc hfuel' h1 h2 h3 h4 (stackInv_tail h5)
        · cases hg : grid p.row p.col with
          | none =>
            rw [ffLoop_skip_none cfg sid cid fuel p rest grid visited acc hvis
              hb hg]
            exact ih rest grid visited acc hfuel' h1 h2 h3 h4 (stackInv_tail h5)
          | some s =>
            by_cases hid : s.id = sid
            case neg =>
              rw [ffLoop_skip_mismatch cfg sid cid fuel p rest grid visited acc
                hvis hb s hg hid]
              exact ih rest grid visited acc hfuel' h1 h2 h3 h4
                (stackInv_tail h5)
            case pos =>
              have hb' := hb
              push_neg at hb'
              have hpin : inBp cfg p := ⟨hb'.1, hb'.2.1, hb'.2.2.1, hb'.2.2.2⟩
              have hsim : gridSim grid
                  (gridSet grid p.row p.col
                    (some { s with clusterId := some cid })) :=
                gridSim_annotate grid p.row p.col s hg cid
              have hpmem : p ∈ acc ++ [p] :=
                List.mem_append_right _ (List.mem_singleton_self p)
              -- the insert strictly shrinks the unvisited bound cells
              have hmem : key p ∈ boundsFinset cfg \ visited := by
                simp only [boundsFinset, Finset.mem_sdiff, Finset.mem_product,
                  Finset.mem_Ico, key]
                exact ⟨⟨⟨hb'.1, hb'.2.1⟩, hb'.2.2.1, hb'.2.2.2⟩, hvis⟩
              have hcard : (boundsFinset cfg \ insert (key p) visited).card
                  < (boundsFinset cfg \ visited).card := by
                apply Finset.card_lt_card
                rw [Finset.sdiff_insert]
                exact Finset.erase_ssubset hmem
              have hfuel'' : 5 * (boundsFinset cfg \
                  insert (key p) visited).card +
                  ((⟨p.col, p.row + 1⟩ : GridPosition) ::
                   (⟨p.col, p.row - 1⟩ : GridPosition) ::
                   (⟨p.col + 1, p.row⟩ : GridPosition) ::
                   (⟨p.col - 1, p.row⟩ : GridPosition) :: rest).length <
                  fuel := by
                simp only [List.length_cons] at hfuel ⊢
                omega
              have h1' : ∀ x ∈ acc ++ [p], key x ∈ insert (key p) visited := by
                intro x hx
                rcases List.mem_append.mp hx with hx' | hx'
                · exact Finset.mem_insert_of_mem (h1 x hx')
                · rcases List.mem_singleton.mp hx' with rfl
                  exact Finset.mem_insert_self _ _
              have hkeyfresh : key p ∉ acc.map key := by
                intro hmem'
                obtain ⟨x, hx, hk⟩ := List.mem_map.mp hmem'
                exact hvis (hk ▸ h1 x hx)
              have h2' : ((acc ++ [p]).map key).Nodup := by
                rw [List.map_append, List.nodup_append]
                refine ⟨h2, List.nodup_singleton _, fun a ha hb'' => ?_⟩
                rw [List.map_singleton, List.mem_singleton] at hb''
                exact hkeyfresh (hb'' ▸ ha)
              have h3' : ∀ x ∈ acc ++ [p], inBp cfg x ∧
                  idAtP (gridSet grid p.row p.col
                    (some { s with clusterId := some cid })) x = some sid := by
                intro x hx
                rcases List.mem_append.mp hx with hx' | hx'
                · obtain ⟨hin, hidx⟩ := h3 x hx'
                  exact ⟨hin, (gridSim_idAtP hsim x).trans hidx⟩
                · rcases List.mem_singleton.mp hx' with rfl
                  refine ⟨hpin, ?_⟩
                  rw [gridSim_idAtP hsim]
                  unfold idAtP
                  rw [hg, Option.map_some', hid]
              have h4' : ∀ x ∈ acc ++ [p], ∀ y ∈ acc ++ [p],
                  reachIn (acc ++ [p]) x y := by
                refine reach_append_point acc p h4 ?_
                rcases h5 p (List.mem_cons_self p rest) with h | h
                · exact Or.inr h
                · exact Or.inl h.1
              have h5' : ∀ x ∈ (⟨p.col, p.row + 1⟩ : GridPosition) ::
                  (⟨p.col, p.row - 1⟩ : GridPosition) ::
                  (⟨p.col + 1, p.row⟩ : GridPosition) ::
                  (⟨p.col - 1, p.row⟩ : GridPosition) :: rest,
                  (∃ q ∈ acc ++ [p], adjacent q x) ∨
                    (acc ++ [p] = [] ∧
                      (⟨p.col, p.row + 1⟩ : GridPosition) ::
                      (⟨p.col, p.row - 1⟩ : GridPosition) ::
                      (⟨p.col + 1, p.row⟩ : GridPosition) ::
                      (⟨p.col - 1, p.row⟩ : GridPosition) :: rest = [x]) := by
                intro x hx
                left
                simp only [List.mem_cons] at hx
                rcases hx with rfl | rfl | rfl | rfl | hx
                · exact ⟨p, hpmem, Or.inl ⟨rfl, Or.inl rfl⟩⟩
                · exact ⟨p, hpmem, Or.inl ⟨rfl, Or.inr rfl⟩⟩
                · exact ⟨p, hpmem, Or.inr ⟨rfl, Or.inl rfl⟩⟩
                · exact ⟨p, hpmem, Or.inr ⟨rfl, Or.inr rfl⟩⟩
                · rcases h5 x (List.mem_cons_of_mem p hx) with ⟨q, hq, ha⟩ |
                    ⟨_, hl⟩
                  · exact ⟨q, List.mem_append_left _ hq, ha⟩
                  · exfalso
                    have hrest : rest = [] :=
                      (List.cons.injEq p rest x []).mp hl |>.2
                    rw [hrest] at hx
                    exact (List.not_mem_nil x) hx
              obtain ⟨ext', e1, e2, e3, e4, e5, e6, e7⟩ := ih
                ((⟨p.col, p.row + 1⟩ : GridPosition) ::
                 (⟨p.col, p.row - 1⟩ : GridPosition) ::
                 (⟨p.col + 1, p.row⟩ : GridPosition) ::
                 (⟨p.col - 1, p.row⟩ : GridPosition) :: rest)
                (gridSet grid p.row p.col
                  (some { s with clusterId := some cid }))
                (insert (key p) visited) (acc ++ [p])
                hfuel'' h1' h2' h3' h4' h5'
              have hEq := ffLoop_step_eq cfg sid cid fuel p rest grid visited
                acc hvis hb s hg hid
              have hassoc : (acc ++ [p]) ++ ext' = acc ++ (p :: ext') := by
                simp
              refine ⟨p :: ext', ?_, ?_, ?_, ?_, ?_, ?_, ?_⟩
              · rw [hEq, e1, hassoc]
              · intro x hx
                rcases List.mem_cons.mp hx with rfl | hx'
                · exact hvis
                · exact fun hmem'' => e2 x hx' (Finset.mem_insert_of_mem hmem'')
              · rw [hEq, e3, List.map_cons, List.toFinset_cons,
                  Finset.insert_union, Finset.union_insert]
              · rw [← hassoc]; exact e4
              · intro x hx
                rw [← hassoc] at hx
                obtain ⟨hin, hidg'⟩ := e5 x hx
                exact ⟨hin, (gridSim_idAtP hsim x).symm.trans hidg'⟩
              · intro x hx y hy
                rw [← hassoc] at hx hy ⊢
                exact e6 x hx y hy
              · rw [hEq]
                exact gridSim_trans hsim e7

/-- `floodFill` on an unvisited, in-bounds, occupied start cell: the
resulting cluster takes the current id (incrementing the counter), is
well-formed, consists of fresh positions (containing the start), marks
exactly its positions visited and only annotates the grid. -/
theorem floodFill_spec (cfg : GameConfig) (grid : Grid) (col row : ℤ)
    (visited : Finset (ℤ × ℤ)) (cid : ℤ)
    (hg : (grid row col).isSome)
    (ht : truthyAt grid row col)
    (hv : ((col, row) : ℤ × ℤ) ∉ visited)
    (hin : 0 ≤ col ∧ col < gcols cfg ∧ 0 ≤ row ∧ row < grows cfg) :
    (floodFill cfg grid col row visited cid).1.id = cid ∧
    (floodFill cfg grid col row visited cid).2.2.2 = cid + 1 ∧
    (⟨col, row⟩ : GridPosition) ∈ (floodFill cfg grid col row visited cid).1.positions ∧
    (∀ p ∈ (floodFill cfg grid col row visited cid).1.positions, key p ∉ visited) ∧
    (floodFill cfg grid col row visited cid).2.2.1 =
      visited ∪ ((floodFill cfg grid col row visited cid).1.positions.map key).toFinset ∧
    clusterOK cfg grid (floodFill cfg grid col row visited cid).1 ∧
    gridSim grid (floodFill cfg grid col row visited cid).2.1 ∧
    (floodFill cfg grid col row visited cid).1.symbolId ≠ "" := by
  obtain ⟨s, hs⟩ := Option.isSome_iff_exists.mp hg
  have hsne : s.id ≠ "" := by
    unfold truthyAt at ht
    rw [hs] at ht
    simpa using ht
  have hb : ¬(col < 0 ∨ gcols cfg ≤ col ∨ row < 0 ∨ grows cfg ≤ row) := by
    push_neg
    exact ⟨hin.1, hin.2.1, hin.2.2.1, hin.2.2.2⟩
  have hstart : key (⟨col, row⟩ : GridPosition) = (col, row) := rfl
  have hgp : grid (⟨col, row⟩ : GridPosition).row (⟨col, row⟩ : GridPosition).col = some s := hs
  have hsim1 : gridSim grid
      (gridSet grid row col (some { s with clusterId := some cid })) :=
    gridSim_annotate grid row col s hs cid
  -- the start cell is fresh and in bounds, so the unvisited count is positive
  have hmem0 : ((col, row) : ℤ × ℤ) ∈ boundsFinset cfg \ visited := by
    simp only [boundsFinset, Finset.mem_sdiff, Finset.mem_product,
      Finset.mem_Ico]
    exact ⟨⟨⟨hin.1, hin.2.1⟩, hin.2.2.1, hin.2.2.2⟩, hv⟩
  have hcard0 : (boundsFinset cfg \ insert ((col, row) : ℤ × ℤ) visited).card
      < (boundsFinset cfg \ visited).card := by
    apply Finset.card_lt_card
    rw [Finset.sdiff_insert]
    exact Finset.erase_ssubset hmem0
  have hcardle : (boundsFinset cfg \ visited).card ≤
      (boundsFinset cfg).card := Finset.card_le_card (Finset.sdiff_subset)
  -- one unfolding of the loop: the start cell is processed
  have hfs : ffFuel cfg = (5 * (boundsFinset cfg).card + 1) + 1 := rfl
  have hEq : ffLoop cfg s.id cid (ffFuel cfg) [⟨col, row⟩] grid visited [] =
      ffLoop cfg s.id cid (5 * (boundsFinset cfg).card + 1)
        (⟨col, row + 1⟩ :: ⟨col, row - 1⟩ :: ⟨col + 1, row⟩ :: ⟨col - 1, row⟩ :: [])
        (gridSet grid row col (some { s with clusterId := some cid }))
        (insert (col, row) visited)
        [⟨col, row⟩] := by
    rw [hfs]
    exact ffLoop_step_eq cfg s.id cid (5 * (boundsFinset cfg).card + 1)
      ⟨col, row⟩ [] grid visited [] hv hb s hs rfl
  have hmaster := ffLoop_spec cfg s.id cid (5 * (boundsFinset cfg).card + 1)
    (⟨col, row + 1⟩ :: ⟨col, row - 1⟩ :: ⟨col + 1, row⟩ :: ⟨col - 1, row⟩ :: [])
    (gridSet grid row col (some { s with clusterId := some cid }))
    (insert (col, row) visited)
    [⟨col, row⟩]
    (by
      simp only [List.length_cons, List.length_nil]
      omega)
    (by intro p hp; rcases List.mem_singleton.mp hp with rfl
        exact Finset.mem_insert_self _ _)
    (by simp)
    (by intro p hp; rcases List.mem_singleton.mp hp with rfl
        refine ⟨⟨hin.1, hin.2.1, hin.2.2.1, hin.2.2.2⟩, ?_⟩
        rw [gridSim_idAtP hsim1]
        unfold idAtP
        rw [hgp, Option.map_some'])
    (by intro p hp q hq
        rcases List.mem_singleton.mp hp with rfl
        rcases List.mem_singleton.mp hq with rfl
        exact Relation.ReflTransGen.refl)
    (by intro x hx
        left
        simp only [List.mem_cons, List.not_mem_nil, or_false] at hx
        have hm : (⟨col, row⟩ : GridPosition) ∈ [(⟨col, row⟩ : GridPosition)] :=
          List.mem_singleton_self _
        rcases hx with rfl | rfl | rfl | rfl
        · exact ⟨⟨col, row⟩, hm, Or.inl ⟨rfl, Or.inl rfl⟩⟩
        · exact ⟨⟨col, row⟩, hm, Or.inl ⟨rfl, Or.inr rfl⟩⟩
        · exact ⟨⟨col, row⟩, hm, Or.inr ⟨rfl, Or.inl rfl⟩⟩
        · exact ⟨⟨col, row⟩, hm, Or.inr ⟨rfl, Or.inr rfl⟩⟩)
  obtain ⟨ext, e1, e2, e3, e4, e5, e6, e7⟩ := hmaster
  have hff : floodFill cfg grid col row visited cid =
      (⟨cid, s.id,
        (ffLoop cfg s.id cid (ffFuel cfg) [⟨col, row⟩] grid visited []).1,
        (ffLoop cfg s.id cid (ffFuel cfg) [⟨col, row⟩] grid visited
          []).1.length, 0⟩,
       (ffLoop cfg s.id cid (ffFuel cfg) [⟨col, row⟩] grid visited []).2.1,
       (ffLoop cfg s.id cid (ffFuel cfg) [⟨col, row⟩] grid visited []).2.2,
       cid + 1) := by
    unfold floodFill
    simp only [hs, if_neg hsne]
  have hpos : (ffLoop cfg s.id cid (ffFuel cfg) [⟨col, row⟩] grid visited
      []).1 = ⟨col, row⟩ :: ext := by
    rw [hEq, e1]
    rfl
  rw [hff]
  dsimp only
  have hfresh : ∀ p ∈ (⟨col, row⟩ : GridPosition) :: ext, key p ∉ visited := by
    intro p hp
    rcases List.mem_cons.mp hp with rfl | hp'
    · rw [hstart]; exact hv
    · exact fun hmem => e2 p hp' (Finset.mem_insert_of_mem hmem)
  refine ⟨rfl, rfl, ?_, ?_, ?_, ?_, ?_, hsne⟩
  · rw [hpos]; exact List.mem_cons_self _ _
  · rw [hpos]; exact hfresh
  · rw [hpos, hEq, e3, List.map_cons, List.toFinset_cons, hstart,
      Finset.insert_union, Finset.union_insert]
  · constructor
    · rw [hpos]; exact List.cons_ne_nil _ _
    refine ⟨?_, rfl, ?_, ?_⟩
    · rw [hpos]
      have := e4
      simpa using this
    · intro p hp
      rw [hpos] at hp
      have hp' : p ∈ [(⟨col, row⟩ : GridPosition)] ++ ext := by simpa using hp
      obtain ⟨hin', hid'⟩ := e5 p hp'
      exact ⟨hin', (gridSim_idAtP hsim1 p).symm.trans hid'⟩
    · intro p hp q hq
      rw [hpos] at hp hq ⊢
      have hp' : p ∈ [(⟨col, row⟩ : GridPosition)] ++ ext := by simpa using hp
      have hq' : q ∈ [(⟨col, row⟩ : GridPosition)] ++ ext := by simpa using hq
      have := e6 p hp' q hq'
      simpa using this
  · rw [hEq]
    exact gridSim_trans hsim1 e7

theorem clusterOK_sim {cfg : GameConfig} {g0 g : Grid} (hsim : gridSim g0 g)
    {c : Cluster} (h : clusterOK cfg g c) : clusterOK cfg g0 c := by
  obtain ⟨h1, h2, h3, h4, h5⟩ := h
  exact ⟨h1, h2, h3,
    fun p hp => ⟨(h4 p hp).1, (gridSim_idAtP hsim p).symm.trans (h4 p hp).2⟩, h5⟩

theorem occKeys_mem {cfg : GameConfig} {g0 : Grid} {p : GridPosition}
    (hin : inBp cfg p) {sid : String} (hid : idAtP g0 p = some sid) :
    key p ∈ occKeys cfg g0 := by
  unfold occKeys
  rw [Finset.mem_filter]
  constructor
  · unfold boundsFinset
    rw [Finset.mem_product]
    exact ⟨Finset.mem_Ico.mpr ⟨hin.1, hin.2.1⟩,
      Finset.mem_Ico.mpr ⟨hin.2.2.1, hin.2.2.2⟩⟩
  · show (g0 p.row p.col).isSome = true
    unfold idAtP at hid
    cases h : g0 p.row p.col with
    | none => rw [h] at hid; exact absurd hid (by simp)
    | some s => rfl

/-- A truthy cell is occupied. -/
theorem truthyAt_isSome {g : Grid} {r c : ℤ} (h : truthyAt g r c) :
    (g r c).isSome := by
  unfold truthyAt at h
  cases hg : g r c with
  | none => rw [hg] at h; exact absurd rfl h
  | some s => rfl

/-- A truthy occupied cell's symbol has a non-empty id. -/
theorem truthyAt_some {g : Grid} {r c : ℤ} {s : GameSymbol}
    (hg : g r c = some s) : truthyAt g r c ↔ s.id ≠ "" := by
  unfold truthyAt
  rw [hg]
  simp

/-- `gridSim` preserves truthiness (it preserves all ids). -/
theorem gridSim_truthyAt {g g' : Grid} (h : gridSim g g') (r c : ℤ) :
    truthyAt g' r c ↔ truthyAt g r c := by
  unfold truthyAt
  rw [h]

/-- Cells of a cluster with a truthy symbol id are truthy occupied cells. -/
theorem occTKeys_mem {cfg : GameConfig} {g0 : Grid} {p : GridPosition}
    (hin : inBp cfg p) {sid : String} (hid : idAtP g0 p = some sid)
    (hne : sid ≠ "") : key p ∈ occTKeys cfg g0 := by
  unfold occTKeys
  rw [Finset.mem_filter]
  constructor
  · unfold boundsFinset
    rw [Finset.mem_product]
    exact ⟨Finset.mem_Ico.mpr ⟨hin.1, hin.2.1⟩,
      Finset.mem_Ico.mpr ⟨hin.2.2.1, hin.2.2.2⟩⟩
  · show truthyAt g0 p.row p.col
    unfold idAtP at hid
    unfold truthyAt
    rw [hid]
    simpa using hne

/-- A truthy in-bounds key of the grid is an `occTKeys` member. -/
theorem occTKeys_mem_of_truthy {cfg : GameConfig} {g0 : Grid} {k : ℤ × ℤ}
    (hb : k ∈ boundsFinset cfg) (ht : truthyAt g0 k.2 k.1) :
    k ∈ occTKeys cfg g0 := by
  unfold occTKeys
  rw [Finset.mem_filter]
  exact ⟨hb, ht⟩

/-- `floodFill` on an occupied cell whose id is falsy (the empty string):
the early return yields the empty cluster and leaves the grid, the visited
set and the cluster-id counter untouched. -/
theorem floodFill_falsy (cfg : GameConfig) (g : Grid) (col row : ℤ)
    (v : Finset (ℤ × ℤ)) (cid : ℤ) {s : GameSymbol}
    (hg : g row col = some s) (hid : s.id = "") :
    floodFill cfg g col row v cid = (⟨-1, "", [], 0, 0⟩, g, v, cid) := by
  unfold floodFill
  rw [hg]
  simp [hid]

/-- Master invariant of the `findClusters` row-major scan.  The accumulated
clusters are well-formed, have strictly increasing ids, pairwise-disjoint
positions, and cover exactly the visited set, which stays inside the
occupied cells and whose cardinality is the summed cluster length; the
scan's grid mutation is id-preserving, every processed occupied cell ends
up visited, and the visited set only grows. -/
theorem findClustersLoop_spec (cfg : GameConfig) (g0 : Grid) :
    ∀ (cells : List (ℕ × ℕ)) (g : Grid) (v : Finset (ℤ × ℤ)) (cid : ℤ)
      (acc : List Cluster),
      (∀ rc ∈ cells, rc.1 < cfg.gameSettings.gridSize.rows ∧
        rc.2 < cfg.gameSettings.gridSize.columns) →
      gridSim g0 g →
      (∀ c ∈ acc, clusterOK cfg g0 c) →
      (∀ c ∈ acc, c.symbolId ≠ "") →
      (∀ c ∈ acc, c.id < cid) →
      List.Pairwise (fun a b => a.id < b.id) acc →
      List.Pairwise (fun a b => ∀ k ∈ a.positions.map key,
        k ∉ b.positions.map key) acc →
      (∀ c ∈ acc, ∀ p ∈ c.positions, key p ∈ v) →
      (∀ k ∈ v, ∃ c ∈ acc, k ∈ c.positions.map key) →
      (∀ k ∈ v, k ∈ occTKeys cfg g0) →
      (acc.map fun c => c.positions.length).sum = v.card →
      (∃ newcs, (findClustersLoop cfg cells g v cid acc).1 = acc ++ newcs) ∧
      (∀ c ∈ (findClustersLoop cfg cells g v cid acc).1, clusterOK cfg g0 c) ∧
      List.Pairwise (fun a b => a.id < b.id)
        (findClustersLoop cfg cells g v cid acc).1 ∧
      List.Pairwise (fun a b => ∀ k ∈ a.positions.map key,
        k ∉ b.positions.map key) (findClustersLoop cfg cells g v cid acc).1 ∧
      (∀ c ∈ (findClustersLoop cfg cells g v cid acc).1, ∀ p ∈ c.positions,
        key p ∈ (findClustersLoop cfg cells g v cid acc).2.2.1) ∧
      (∀ k ∈ (findClustersLoop cfg cells g v cid acc).2.2.1,
        ∃ c ∈ (findClustersLoop cfg cells g v cid acc).1,
          k ∈ c.positions.map key) ∧
      (∀ k ∈ (findClustersLoop cfg cells g v cid acc).2.2.1,
        k ∈ occTKeys cfg g0) ∧
      ((findClustersLoop cfg cells g v cid acc).1.map
        fun c => c.positions.length).sum =
        (findClustersLoop cfg cells g v cid acc).2.2.1.card ∧
      gridSim g0 (findClustersLoop cfg cells g v cid acc).2.1 ∧
      (∀ rc ∈ cells, truthyAt g0 (rc.1 : ℤ) (rc.2 : ℤ) →
        (((rc.2 : ℤ), (rc.1 : ℤ)) : ℤ × ℤ) ∈
          (findClustersLoop cfg cells g v cid acc).2.2.1) ∧
      v ⊆ (findClustersLoop cfg cells g v cid acc).2.2.1 ∧
      (∀ c ∈ (findClustersLoop cfg cells g v cid acc).1,
        c.symbolId ≠ "") := by
  intro cells
  induction cells with
  | nil =>
    intro g v cid acc _ hsim hok hsid hlt hpw hdisj hkv hcov hocc hsum
    rw [findClustersLoop]
    exact ⟨⟨[], by simp⟩, hok, hpw, hdisj, hkv, hcov, hocc, hsum, hsim,
      by intro rc hrc; exact absurd hrc (List.not_mem_nil rc),
      Finset.Subset.refl v, hsid⟩
  | cons rc rest ih =>
    intro g v cid acc hbnd hsim hok hsid hlt hpw hdisj hkv hcov hocc hsum
    obtain ⟨row, col⟩ := rc
    have hbhead := hbnd (row, col) (List.mem_cons_self _ _)
    have hbrest : ∀ rc ∈ rest, rc.1 < cfg.gameSettings.gridSize.rows ∧
        rc.2 < cfg.gameSettings.gridSize.columns :=
      fun rc hrc => hbnd rc (List.mem_cons_of_mem _ hrc)
    by_cases hguard : (((col : ℤ), (row : ℤ)) : ℤ × ℤ) ∉ v ∧
        (g (row : ℤ) (col : ℤ)).isSome
    · -- the cell starts a flood fill (empty for a falsy id)
      by_cases htr : truthyAt g (row : ℤ) (col : ℤ)
      case neg =>
        obtain ⟨s, hs⟩ := Option.isSome_iff_exists.mp hguard.2
        have hside : s.id = "" := by
          unfold truthyAt at htr
          rw [hs] at htr
          simpa using htr
        have hnc := floodFill_falsy cfg g (col : ℤ) (row : ℤ) v cid hs hside
        have hstepEq : findClustersLoop cfg ((row, col) :: rest) g v cid acc =
            findClustersLoop cfg rest g v cid acc := by
          rw [findClustersLoop, if_pos hguard, hnc]
          simp
        rw [hstepEq]
        obtain ⟨e1, e2, e3, e4, e5, e6, e7, e8, e9, e10, e11, e12⟩ :=
          ih g v cid acc hbrest hsim hok hsid hlt hpw hdisj hkv hcov hocc hsum
        refine ⟨e1, e2, e3, e4, e5, e6, e7, e8, e9, ?_, e11, e12⟩
        intro rc hrc htr0
        rcases List.mem_cons.mp hrc with heq | hrc'
        · rw [heq] at htr0
          exact absurd ((gridSim_truthyAt hsim _ _).mpr htr0) htr
        · exact e10 rc hrc' htr0
      have hin : 0 ≤ (col : ℤ) ∧ (col : ℤ) < gcols cfg ∧
          0 ≤ (row : ℤ) ∧ (row : ℤ) < grows cfg := by
        refine ⟨Int.ofNat_nonneg col, ?_, Int.ofNat_nonneg row, ?_⟩
        · unfold gcols; exact_mod_cast hbhead.2
        · unfold grows; exact_mod_cast hbhead.1
      obtain ⟨f1, f2, f3, f4, f5, f6, f7, f8⟩ :=
        floodFill_spec cfg g (col : ℤ) (row : ℤ) v cid hguard.2 htr hguard.1
          hin
      have hok' : clusterOK cfg g0 (floodFill cfg g col row v cid).1 :=
        clusterOK_sim hsim f6
      have hlen : 1 ≤ (floodFill cfg g col row v cid).1.positions.length := by
        have := f6.1
        cases h : (floodFill cfg g col row v cid).1.positions with
        | nil => exact absurd h this
        | cons a l => simp [h]
      have hstepEq : findClustersLoop cfg ((row, col) :: rest) g v cid acc =
          findClustersLoop cfg rest (floodFill cfg g col row v cid).2.1
            (floodFill cfg g col row v cid).2.2.1
            (floodFill cfg g col row v cid).2.2.2
            (acc ++ [(floodFill cfg g col row v cid).1]) := by
        rw [findClustersLoop]
        rw [if_pos hguard, if_pos hlen]
      rw [hstepEq]
      -- keys of the new cluster are fresh relative to `v`
      have hfreshkeys : ∀ k ∈ (floodFill cfg g col row v cid).1.positions.map
          key, k ∉ v := by
        intro k hk hkv'
        obtain ⟨p, hp, rfl⟩ := List.mem_map.mp hk
        exact f4 p hp hkv'
      -- invariants for the recursive call
      have hsim' : gridSim g0 (floodFill cfg g col row v cid).2.1 :=
        gridSim_trans hsim f7
      have hok'' : ∀ c ∈ acc ++ [(floodFill cfg g col row v cid).1],
          clusterOK cfg g0 c := by
        intro c hc
        rcases List.mem_append.mp hc with hc' | hc'
        · exact hok c hc'
        · rcases List.mem_singleton.mp hc' with rfl
          exact hok'
      have hlt' : ∀ c ∈ acc ++ [(floodFill cfg g col row v cid).1],
          c.id < (floodFill cfg g col row v cid).2.2.2 := by
        intro c hc
        rw [f2]
        rcases List.mem_append.mp hc with hc' | hc'
        · exact lt_trans (hlt c hc') (lt_add_one cid)
        · rcases List.mem_singleton.mp hc' with rfl
          rw [f1]
          exact lt_add_one cid
      have hpw' : List.Pairwise (fun a b => a.id < b.id)
          (acc ++ [(floodFill cfg g col row v cid).1]) := by
        rw [List.pairwise_append]
        refine ⟨hpw, List.pairwise_singleton _ _, ?_⟩
        intro a ha b hb
        rcases List.mem_singleton.mp hb with rfl
        rw [f1]
        exact hlt a ha
      have hdisj' : List.Pairwise (fun a b => ∀ k ∈ a.positions.map key,
          k ∉ b.positions.map key)
          (acc ++ [(floodFill cfg g col row v cid).1]) := by
        rw [List.pairwise_append]
        refine ⟨hdisj, List.pairwise_singleton _ _, ?_⟩
        intro a ha b hb
        rcases List.mem_singleton.mp hb with rfl
        intro k hk hk'
        obtain ⟨p, hp, rfl⟩ := List.mem_map.mp hk
        exact hfreshkeys (key p) hk' (hkv a ha p hp)
      have hkv' : ∀ c ∈ acc ++ [(floodFill cfg g col row v cid).1],
          ∀ p ∈ c.positions, key p ∈ (floodFill cfg g col row v cid).2.2.1 := by
        intro c hc p hp
        rw [f5]
        rcases List.mem_append.mp hc with hc' | hc'
        · exact Finset.mem_union_left _ (hkv c hc' p hp)
        · rcases List.mem_singleton.mp hc' with rfl
          exact Finset.mem_union_right _
            (List.mem_toFinset.mpr (List.mem_map_of_mem key hp))
      have hcov' : ∀ k ∈ (floodFill cfg g col row v cid).2.2.1,
          ∃ c ∈ acc ++ [(floodFill cfg g col row v cid).1],
            k ∈ c.positions.map key := by
        intro k hk
        rw [f5] at hk
        rcases Finset.mem_union.mp hk with hk' | hk'
        · obtain ⟨c, hc, hck⟩ := hcov k hk'
          exact ⟨c, List.mem_append_left _ hc, hck⟩
        · exact ⟨(floodFill cfg g col row v cid).1,
            List.mem_append_right _ (List.mem_singleton_self _),
            List.mem_toFinset.mp hk'⟩
      have hsid' : ∀ c ∈ acc ++ [(floodFill cfg g col row v cid).1],
          c.symbolId ≠ "" := by
        intro c hc
        rcases List.mem_append.mp hc with hc' | hc'
        · exact hsid c hc'
        · rcases List.mem_singleton.mp hc' with rfl
          exact f8
      have hocc' : ∀ k ∈ (floodFill cfg g col row v cid).2.2.1,
          k ∈ occTKeys cfg g0 := by
        intro k hk
        rw [f5] at hk
        rcases Finset.mem_union.mp hk with hk' | hk'
        · exact hocc k hk'
        · obtain ⟨p, hp, rfl⟩ := List.mem_map.mp (List.mem_toFinset.mp hk')
          obtain ⟨hinp, hidp⟩ := hok'.2.2.2.1 p hp
          exact occTKeys_mem hinp hidp f8
      have hcard : ((floodFill cfg g col row v cid).1.positions.map
          key).toFinset.card =
          (floodFill cfg g col row v cid).1.positions.length := by
        rw [List.toFinset_card_of_nodup f6.2.1, List.length_map]
      have hsum' : ((acc ++ [(floodFill cfg g col row v cid).1]).map
          fun c => c.positions.length).sum =
          (floodFill cfg g col row v cid).2.2.1.card := by
        rw [f5, Finset.card_union_of_disjoint, List.map_append]
        · simp only [List.map_singleton, List.sum_append, List.sum_singleton]
          rw [hsum, hcard]
        · rw [Finset.disjoint_right]
          intro k hk
          exact hfreshkeys k (List.mem_toFinset.mp hk)
      obtain ⟨⟨newcs', i1⟩, i2, i3, i4, i5, i6, i7, i8, i9, i10, i11, i12⟩ :=
        ih (floodFill cfg g col row v cid).2.1
          (floodFill cfg g col row v cid).2.2.1
          (floodFill cfg g col row v cid).2.2.2
          (acc ++ [(floodFill cfg g col row v cid).1])
          hbrest hsim' hok'' hsid' hlt' hpw' hdisj' hkv' hcov' hocc' hsum'
      have hvsub : v ⊆ (floodFill cfg g col row v cid).2.2.1 := by
        rw [f5]; exact Finset.subset_union_left
      refine ⟨⟨[(floodFill cfg g col row v cid).1] ++ newcs', by
        rw [i1, List.append_assoc]⟩, i2, i3, i4, i5, i6, i7, i8, i9, ?_, ?_,
        i12⟩
      · intro rc hrc hoc
        rcases List.mem_cons.mp hrc with heq | hrc'
        · rw [heq]
          apply i11
          rw [f5]
          apply Finset.mem_union_right
          apply List.mem_toFinset.mpr
          have : key (⟨(col : ℤ), (row : ℤ)⟩ : GridPosition) =
              (((col : ℤ), (row : ℤ)) : ℤ × ℤ) := rfl
          rw [← this]
          exact List.mem_map_of_mem key f3
        · exact i10 rc hrc' hoc
      · exact Finset.Subset.trans hvsub i11
    · -- skip: already visited or empty
      have hstepEq : findClustersLoop cfg ((row, col) :: rest) g v cid acc =
          findClustersLoop cfg rest g v cid acc := by
        rw [findClustersLoop]
        rw [if_neg hguard]
      rw [hstepEq]
      obtain ⟨e1, e2, e3, e4, e5, e6, e7, e8, e9, e10, e11, e12⟩ :=
        ih g v cid acc hbrest hsim hok hsid hlt hpw hdisj hkv hcov hocc hsum
      refine ⟨e1, e2, e3, e4, e5, e6, e7, e8, e9, ?_, e11, e12⟩
      intro rc hrc hoc
      rcases List.mem_cons.mp hrc with heq | hrc'
      · rw [heq] at hoc ⊢
        have hocg : (g (row : ℤ) (col : ℤ)).isSome := by
          rw [gridSim_isSome hsim]
          exact truthyAt_isSome hoc
        have hkin : (((col : ℤ), (row : ℤ)) : ℤ × ℤ) ∈ v := by
          by_contra hkv''
          exact hguard ⟨hkv'', hocg⟩
        exact e11 hkin
      · exact e10 rc hrc' hoc

theorem cellsRM_mem (cfg : GameConfig) (row col : ℕ) :
    (row, col) ∈ cellsRM cfg ↔
      row < cfg.gameSettings.gridSize.rows ∧
        col < cfg.gameSettings.gridSize.columns := by
  simp [cellsRM]

theorem key_injective {p q : GridPosition} (h : key p = key q) : p = q := by
  cases p; cases q
  unfold key at h
  simp only [Prod.mk.injEq] at h
  simp [h.1, h.2]

/-- The clusters of one `findClusters` scan: well-formed, distinct ids,
pairwise-disjoint positions, covering every occupied in-bounds position,
with lengths summing to the occupied-cell count. -/
theorem findClusters_spec (cfg : GameConfig) (grid : Grid) (cid : ℤ) :
    (∀ c ∈ (findClusters cfg grid cid).1, clusterOK cfg grid c) ∧
    List.Pairwise (fun a b => a.id ≠ b.id) (findClusters cfg grid cid).1 ∧
    List.Pairwise (fun a b => ∀ k ∈ a.positions.map key,
      k ∉ b.positions.map key) (findClusters cfg grid cid).1 ∧
    (∀ p : GridPosition, inBp cfg p → truthyAt grid p.row p.col →
      ∃ c ∈ (findClusters cfg grid cid).1, p ∈ c.positions) ∧
    ((findClusters cfg grid cid).1.map fun c => c.positions.length).sum =
      (occTKeys cfg grid).card ∧
    (∀ c ∈ (findClusters cfg grid cid).1, c.symbolId ≠ "") := by
  have hbnd : ∀ rc ∈ cellsRM cfg, rc.1 < cfg.gameSettings.gridSize.rows ∧
      rc.2 < cfg.gameSettings.gridSize.columns := by
    intro rc hrc
    obtain ⟨row, col⟩ := rc
    exact (cellsRM_mem cfg row col).mp hrc
  obtain ⟨⟨newcs, i1⟩, i2, i3, i4, i5, i6, i7, i8, i9, i10, i11, i12⟩ :=
    findClustersLoop_spec cfg grid (cellsRM cfg) grid ∅ cid []
      hbnd (gridSim_refl grid) (by simp) (by simp) (by simp) (by simp)
      (by simp) (by simp) (by simp) (by simp) (by simp)
  have hfc : (findClusters cfg grid cid).1 =
      (findClustersLoop cfg (cellsRM cfg) grid ∅ cid []).1 := rfl
  -- every truthy in-bounds key is visited
  have hcompl : ∀ p : GridPosition, inBp cfg p → truthyAt grid p.row p.col →
      key p ∈ (findClustersLoop cfg (cellsRM cfg) grid ∅ cid []).2.2.1 := by
    intro p hin hoc
    have hcol : ((p.col.toNat : ℤ)) = p.col := Int.toNat_of_nonneg hin.1
    have hrow : ((p.row.toNat : ℤ)) = p.row := Int.toNat_of_nonneg hin.2.2.1
    have hcell : (p.row.toNat, p.col.toNat) ∈ cellsRM cfg := by
      rw [cellsRM_mem]
      constructor
      · have := hin.2.2.2
        unfold grows at this
        omega
      · have := hin.2.1
        unfold gcols at this
        omega
    have hocc' : truthyAt grid ((p.row.toNat : ℤ)) ((p.col.toNat : ℤ)) := by
      rw [hcol, hrow]
      exact hoc
    have := i10 (p.row.toNat, p.col.toNat) hcell hocc'
    simpa [key, hcol, hrow] using this
  -- the visited set is exactly the truthy in-bounds keys
  have hVeq : (findClustersLoop cfg (cellsRM cfg) grid ∅ cid []).2.2.1 =
      occTKeys cfg grid := by
    apply Finset.Subset.antisymm
    · intro k hk
      exact i7 k hk
    · intro k hk
      unfold occTKeys at hk
      rw [Finset.mem_filter] at hk
      obtain ⟨hkb, hks⟩ := hk
      unfold boundsFinset at hkb
      rw [Finset.mem_product, Finset.mem_Ico, Finset.mem_Ico] at hkb
      have hp : inBp cfg ⟨k.1, k.2⟩ :=
        ⟨hkb.1.1, hkb.1.2, hkb.2.1, hkb.2.2⟩
      have := hcompl ⟨k.1, k.2⟩ hp hks
      simpa [key] using this
  refine ⟨i2, List.Pairwise.imp (fun h => ne_of_lt h) i3, i4, ?_, ?_, i12⟩
  · intro p hin hoc
    obtain ⟨c, hc, hck⟩ := i6 (key p) (hcompl p hin hoc)
    obtain ⟨p', hp', hkp⟩ := List.mem_map.mp hck
    rw [hfc]
    exact ⟨c, hc, key_injective hkp ▸ hp'⟩
  · rw [hfc, i8, hVeq]

/-- Claim C4 as amended for JS falsy-id semantics: the clusters returned
by one `evaluateWin` pass partition the occupied cells holding a truthy
(non-empty) symbol id: every such in-bounds position appears in exactly
one cluster's (duplicate-free) positions list, every position in a cluster
holds that cluster's non-empty symbol id and is 4-connected within the
cluster, cluster ids are pairwise distinct, each cluster's size equals its
positions list length, and the sizes sum to the number of truthy occupied
positions.  An occupied cell whose id is the empty string is falsy for
`floodFill`'s `if (!symbolId)` early return and belongs to no cluster. -/
theorem cluster_partition (cfg : GameConfig) (grid : Grid) (bet : ℚ)
    (isFreeSpin : Bool) (r : RNGState) :
    (∀ p : GridPosition, inBp cfg p → truthyAt grid p.row p.col →
      ∃ c ∈ (evaluateWin cfg grid bet isFreeSpin r).1.clusters,
        p ∈ c.positions ∧
        ∀ c' ∈ (evaluateWin cfg grid bet isFreeSpin r).1.clusters,
          p ∈ c'.positions → c' = c) ∧
    (∀ p : GridPosition, idAtP grid p = some "" →
      ∀ c ∈ (evaluateWin cfg grid bet isFreeSpin r).1.clusters,
        p ∉ c.positions) ∧
    (∀ c ∈ (evaluateWin cfg grid bet isFreeSpin r).1.clusters,
      c.positions.Nodup) ∧
    (∀ c ∈ (evaluateWin cfg grid bet isFreeSpin r).1.clusters,
      c.symbolId ≠ "" ∧
      ∀ p ∈ c.positions, idAtP grid p = some c.symbolId) ∧
    (∀ c ∈ (evaluateWin cfg grid bet isFreeSpin r).1.clusters,
      ∀ p ∈ c.positions, ∀ q ∈ c.positions, reachIn c.positions p q) ∧
    List.Pairwise (fun a b => a.id ≠ b.id)
      (evaluateWin cfg grid bet isFreeSpin r).1.clusters ∧
    (∀ c ∈ (evaluateWin cfg grid bet isFreeSpin r).1.clusters,
      c.size = c.positions.length) ∧
    (((evaluateWin cfg grid bet isFreeSpin r).1.clusters.map
      Cluster.size).sum = (occTKeys cfg grid).card) := by
  obtain ⟨hOK, hids, hdisj, hcover, hsum, hsid⟩ := findClusters_spec cfg grid 0
  have hcs := evaluateWin_clusters_eq cfg grid bet isFreeSpin r
  -- the symmetrized disjointness relation
  have hdisj' : List.Pairwise
      (fun a b : Cluster => (∀ k ∈ a.positions.map key,
        k ∉ b.positions.map key) ∨ (∀ k ∈ b.positions.map key,
        k ∉ a.positions.map key)) (findClusters cfg grid 0).1 :=
    hdisj.imp fun h => Or.inl h
  have hsymm : Symmetric (fun a b : Cluster =>
      (∀ k ∈ a.positions.map key, k ∉ b.positions.map key) ∨
      (∀ k ∈ b.positions.map key, k ∉ a.positions.map key)) :=
    fun a b h => h.symm
  refine ⟨?_, ?_, ?_, ?_, ?_, ?_, ?_, ?_⟩
  · intro p hin hoc
    obtain ⟨c0, hc0, hp0⟩ := hcover p hin hoc
    refine ⟨{ c0 with payout := clusterPayout cfg bet c0 },
      by rw [hcs]; exact List.mem_map_of_mem _ hc0, hp0, ?_⟩
    intro c' hc' hp'
    rw [hcs] at hc'
    obtain ⟨c0', hc0', rfl⟩ := List.mem_map.mp hc'
    have hc0'eq : c0' = c0 := by
      by_contra hne
      have hk : key p ∈ c0'.positions.map key := List.mem_map_of_mem key hp'
      have hk0 : key p ∈ c0.positions.map key := List.mem_map_of_mem key hp0
      rcases hdisj'.forall hsymm hc0' hc0 hne with h | h
      · exact h (key p) hk hk0
      · exact h (key p) hk0 hk
    rw [hc0'eq]
  · intro p hide c hc hp
    rw [hcs] at hc
    obtain ⟨c0, hc0, rfl⟩ := List.mem_map.mp hc
    have hidp : idAtP grid p = some c0.symbolId :=
      ((hOK c0 hc0).2.2.2.1 p hp).2
    rw [hide] at hidp
    exact hsid c0 hc0 (Option.some.inj hidp).symm
  · intro c hc
    rw [hcs] at hc
    obtain ⟨c0, hc0, rfl⟩ := List.mem_map.mp hc
    exact ((hOK c0 hc0).2.1).of_map key
  · intro c hc
    rw [hcs] at hc
    obtain ⟨c0, hc0, rfl⟩ := List.mem_map.mp hc
    exact ⟨hsid c0 hc0, fun p hp => ((hOK c0 hc0).2.2.2.1 p hp).2⟩
  · intro c hc
    rw [hcs] at hc
    obtain ⟨c0, hc0, rfl⟩ := List.mem_map.mp hc
    exact (hOK c0 hc0).2.2.2.2
  · rw [hcs]
    rw [List.pairwise_map]
    exact hids
  · intro c hc
    rw [hcs] at hc
    obtain ⟨c0, hc0, rfl⟩ := List.mem_map.mp hc
    exact (hOK c0 hc0).2.2.1
  · rw [hcs, ← hsum, List.map_map]
    congr 1
    apply List.map_congr_left
    intro c0 hc0
    exact (hOK c0 hc0).2.2.1

/-! ## Gravity (claim C5) -/

theorem rev_range (n : ℕ) :
    (List.range n).reverse = (List.range n).map (fun i => n - 1 - i) := by
  rw [List.range_eq_range', List.reverse_range']
  rw [← List.range_eq_range']
  apply List.map_congr_left
  intro i hi
  have : i < n := List.mem_range.mp hi
  omega

theorem range_filterMap_get {α β : Type} :
    ∀ (l : List α) (n : ℕ), l.length ≤ n → ∀ (h : α → β),
      (List.range n).filterMap (fun j => (l.get? j).map h) = l.map h := by
  intro l
  induction l with
  | nil =>
    intro n _ h
    simp
  | cons a t ih =>
    intro n hn h
    cases n with
    | zero => simp at hn
    | succ m =>
      rw [List.range_succ_eq_map, List.filterMap_cons]
      simp only [List.get?_cons_zero, Option.map_some']
      rw [List.filterMap_map]
      have : (fun j => ((a :: t).get? (Nat.succ j)).map h) ∘ id =
          fun j => (t.get? j).map h := by
        funext j
        rfl
      have hrw : List.filterMap ((fun j => ((a :: t).get? j).map h) ∘ Nat.succ)
          (List.range m) = List.filterMap (fun j => (t.get? j).map h)
          (List.range m) := by
        apply List.filterMap_congr
        intro j _
        rfl
      rw [hrw, ih m (by simpa using hn) h]
      rfl

theorem rev_range_gets {α β : Type} (l : List α) (n : ℕ) (hl : l.length ≤ n)
    (h : α → β) :
    ((List.range n).reverse).filterMap
      (fun row => (l.get? (n - 1 - row)).map h) = l.map h := by
  rw [rev_range, List.filterMap_map]
  have hcongr : List.filterMap
      ((fun row => (l.get? (n - 1 - row)).map h) ∘ fun i => n - 1 - i)
      (List.range n) =
      List.filterMap (fun j => (l.get? j).map h) (List.range n) := by
    apply List.filterMap_congr
    intro j hj
    have : j < n := List.mem_range.mp hj
    simp only [Function.comp_apply]
    congr 2
    omega
  rw [hcongr, range_filterMap_get l n hl h]

theorem columnSymbols_length_le (cfg : GameConfig) (g : Grid) (col : ℕ) :
    (columnSymbols cfg g col).length ≤ cfg.gameSettings.gridSize.rows := by
  unfold columnSymbols
  calc (((List.range cfg.gameSettings.gridSize.rows).reverse).filterMap
        fun (row : ℕ) => g (row : ℤ) (col : ℤ)).length
      ≤ ((List.range cfg.gameSettings.gridSize.rows).reverse).length :=
        List.length_filterMap_le _ _
    _ = cfg.gameSettings.gridSize.rows := by simp

/-- `columnSymbols` only reads its own column. -/
theorem columnSymbols_congr (cfg : GameConfig) {g g' : Grid} (col : ℕ)
    (h : ∀ row : ℤ, g' row (col : ℤ) = g row (col : ℤ)) :
    columnSymbols cfg g' col = columnSymbols cfg g col := by
  unfold columnSymbols
  apply List.filterMap_congr
  intro row _
  exact h ((row : ℕ) : ℤ)

theorem gravityColumn_apply (cfg : GameConfig) (g : Grid) (col : ℕ)
    (r c : ℤ) :
    gravityColumn cfg g col r c =
      if c = (col : ℤ) ∧ 0 ≤ r ∧ r < grows cfg then
        ((columnSymbols cfg g col).get? ((grows cfg - 1 - r).toNat)).map
          (fun s => { s with position := ⟨(col : ℤ), r⟩ })
      else g r c := rfl

/-- Closed form of the column-by-column gravity fold: each in-range cell of
a processed column holds the repositioned entry of the original column's
bottom-up symbol list; everything else is untouched. -/
theorem gravity_fold_spec (cfg : GameConfig) :
    ∀ (L : List ℕ), L.Nodup → ∀ (g : Grid) (r c : ℤ),
      (L.foldl (fun g' col => gravityColumn cfg g' col) g) r c =
        if (∃ col ∈ L, c = (col : ℤ)) ∧ 0 ≤ r ∧ r < grows cfg then
          ((columnSymbols cfg g c.toNat).get? ((grows cfg - 1 - r).toNat)).map
            (fun s => { s with position := ⟨c, r⟩ })
        else g r c := by
  intro L
  induction L with
  | nil =>
    intro _ g r c
    simp
  | cons col L' ih =>
    intro hnd g r c
    have hndL' : L'.Nodup := (List.nodup_cons.mp hnd).2
    have hcolnot : col ∉ L' := (List.nodup_cons.mp hnd).1
    rw [List.foldl_cons, ih hndL' (gravityColumn cfg g col) r c]
    by_cases hc : c = (col : ℤ)
    · -- this is the freshly processed column
      have hnotL' : ¬ ∃ col' ∈ L', c = (col' : ℤ) := by
        rintro ⟨col', hcol', hceq⟩
        have : col = col' := by
          have := hc ▸ hceq
          exact_mod_cast this
        exact hcolnot (this ▸ hcol')
      by_cases hr : 0 ≤ r ∧ r < grows cfg
      · rw [if_neg (fun h => hnotL' h.1), gravityColumn_apply,
          if_pos ⟨hc, hr⟩, if_pos ⟨⟨col, List.mem_cons_self _ _, hc⟩, hr⟩]
        have hct : c.toNat = col := by
          rw [hc]
          exact Int.toNat_ofNat col
        rw [hct, hc]
      · rw [if_neg (fun h => hr h.2), gravityColumn_apply,
          if_neg (fun h => hr h.2), if_neg (fun h => hr h.2)]
    · -- untouched by the head column
      have hgc : ∀ row : ℤ, gravityColumn cfg g col row c = g row c := by
        intro row
        rw [gravityColumn_apply, if_neg (fun h => hc h.1)]
      by_cases hcond : (∃ col' ∈ L', c = (col' : ℤ)) ∧ 0 ≤ r ∧ r < grows cfg
      · obtain ⟨⟨col', hcol', hceq⟩, hr⟩ := hcond
        have hcs : columnSymbols cfg (gravityColumn cfg g col) c.toNat =
            columnSymbols cfg g c.toNat := by
          apply columnSymbols_congr
          intro row
          have : ((c.toNat : ℕ) : ℤ) = c := by
            rw [hceq]
            simp
          rw [this]
          exact hgc row
        rw [if_pos ⟨⟨col', hcol', hceq⟩, hr⟩,
          if_pos ⟨⟨col', List.mem_cons_of_mem _ hcol', hceq⟩, hr⟩, hcs]
      · rw [if_neg hcond, hgc r, if_neg ?_]
        rintro ⟨⟨col', hcol', hceq⟩, hr⟩
        rcases List.mem_cons.mp hcol' with rfl | hmem
        · exact hc hceq
        · exact hcond ⟨⟨col', hmem, hceq⟩, hr⟩

/-- Pointwise closed form of `applyGravity`. -/
theorem applyGravity_apply (cfg : GameConfig) (g : Grid) (r c : ℤ) :
    applyGravity cfg g r c =
      if (0 ≤ c ∧ c < gcols cfg) ∧ 0 ≤ r ∧ r < grows cfg then
        ((columnSymbols cfg g c.toNat).get? ((grows cfg - 1 - r).toNat)).map
          (fun s => { s with position := ⟨c, r⟩ })
      else g r c := by
  unfold applyGravity
  rw [gravity_fold_spec cfg _ (List.nodup_range _) g r c]
  congr 1
  have : (∃ col ∈ List.range cfg.gameSettings.gridSize.columns,
      c = (col : ℤ)) ↔ 0 ≤ c ∧ c < gcols cfg := by
    constructor
    · rintro ⟨col, hcol, rfl⟩
      have := List.mem_range.mp hcol
      constructor
      · exact Int.ofNat_nonneg col
      · unfold gcols
        exact_mod_cast this
    · rintro ⟨h0, hlt⟩
      refine ⟨c.toNat, List.mem_range.mpr ?_, (Int.toNat_of_nonneg h0).symm⟩
      unfold gcols at hlt
      omega
  rw [this]

/-- Projections ignoring `position` are preserved per column by gravity,
in bottom-up order. -/
theorem gravity_column_proj (cfg : GameConfig) (g : Grid) (col : ℕ)
    (hcol : col < cfg.gameSettings.gridSize.columns) {β : Type}
    (proj : GameSymbol → β)
    (hproj : ∀ (s : GameSymbol) (c' r' : ℤ),
      proj { s with position := ⟨c', r'⟩ } = proj s) :
    (columnSymbols cfg (applyGravity cfg g) col).map proj =
      (columnSymbols cfg g col).map proj := by
  have hlen := columnSymbols_length_le cfg g col
  conv_lhs => unfold columnSymbols
  rw [List.map_filterMap]
  have hstep : ∀ row ∈ (List.range cfg.gameSettings.gridSize.rows).reverse,
      (applyGravity cfg g (row : ℤ) (col : ℤ)).map proj =
        ((columnSymbols cfg g col).get?
          (cfg.gameSettings.gridSize.rows - 1 - row)).map proj := by
    intro row hrow
    have hrlt : row < cfg.gameSettings.gridSize.rows :=
      List.mem_range.mp (List.mem_reverse.mp hrow)
    have hcond : (0 ≤ (col : ℤ) ∧ (col : ℤ) < gcols cfg) ∧
        0 ≤ (row : ℤ) ∧ (row : ℤ) < grows cfg := by
      refine ⟨⟨Int.ofNat_nonneg col, ?_⟩, Int.ofNat_nonneg row, ?_⟩
      · unfold gcols; exact_mod_cast hcol
      · unfold grows; exact_mod_cast hrlt
    rw [applyGravity_apply, if_pos hcond, Option.map_map]
    have htn : ((col : ℤ)).toNat = col := Int.toNat_ofNat col
    have hidx : (grows cfg - 1 - (row : ℤ)).toNat =
        cfg.gameSettings.gridSize.rows - 1 - row := by
      unfold grows
      omega
    rw [htn, hidx]
    congr 1
    funext s
    exact hproj s (col : ℤ) (row : ℤ)
  rw [List.filterMap_congr hstep]
  exact rev_range_gets (columnSymbols cfg g col)
    cfg.gameSettings.gridSize.rows hlen proj

/-- Claim C5: after `applyGravity`, in every column no empty cell lies
below an occupied cell, the bottom-up sequence of symbols (ids, and whole
symbols up to the rewritten position field) is unchanged, and every cell's
symbol carries a `position` equal to its coordinates. -/
theorem gravity_invariant (cfg : GameConfig) (g : Grid) (col : ℕ)
    (hcol : col < cfg.gameSettings.gridSize.columns) :
    (∀ r1 r2 : ℤ, 0 ≤ r1 → r1 ≤ r2 → r2 < grows cfg →
      ((applyGravity cfg g) r1 (col : ℤ)).isSome →
      ((applyGravity cfg g) r2 (col : ℤ)).isSome) ∧
    (columnSymbols cfg (applyGravity cfg g) col).map GameSymbol.id =
      (columnSymbols cfg g col).map GameSymbol.id ∧
    (columnSymbols cfg (applyGravity cfg g) col).map
        (fun s => { s with position := ⟨0, 0⟩ }) =
      (columnSymbols cfg g col).map (fun s => { s with position := ⟨0, 0⟩ }) ∧
    (∀ r : ℤ, 0 ≤ r → r < grows cfg → ∀ s,
      (applyGravity cfg g) r (col : ℤ) = some s →
      s.position = ⟨(col : ℤ), r⟩) := by
  have hcolZ : 0 ≤ (col : ℤ) ∧ (col : ℤ) < gcols cfg := by
    refine ⟨Int.ofNat_nonneg col, ?_⟩
    unfold gcols
    exact_mod_cast hcol
  have htn : ((col : ℤ)).toNat = col := Int.toNat_ofNat col
  refine ⟨?_, ?_, ?_, ?_⟩
  · intro r1 r2 hr1 hr12 hr2 hsome
    have hcond1 : (0 ≤ (col : ℤ) ∧ (col : ℤ) < gcols cfg) ∧
        0 ≤ r1 ∧ r1 < grows cfg := ⟨hcolZ, hr1, lt_of_le_of_lt hr12 hr2⟩
    have hcond2 : (0 ≤ (col : ℤ) ∧ (col : ℤ) < gcols cfg) ∧
        0 ≤ r2 ∧ r2 < grows cfg := ⟨hcolZ, le_trans hr1 hr12, hr2⟩
    rw [applyGravity_apply, if_pos hcond1, htn] at hsome
    rw [applyGravity_apply, if_pos hcond2, htn]
    rw [Option.isSome_map'] at hsome ⊢
    have hlt1 : (grows cfg - 1 - r1).toNat <
        (columnSymbols cfg g col).length := by
      by_contra hge
      rw [List.get?_eq_none.mpr (le_of_not_lt hge)] at hsome
      exact absurd hsome (by simp)
    have hle : (grows cfg - 1 - r2).toNat ≤ (grows cfg - 1 - r1).toNat := by
      omega
    have hlt2 : (grows cfg - 1 - r2).toNat <
        (columnSymbols cfg g col).length := lt_of_le_of_lt hle hlt1
    rw [List.get?_eq_get hlt2]
    simp
  · exact gravity_column_proj cfg g col hcol GameSymbol.id fun s c' r' => rfl
  · exact gravity_column_proj cfg g col hcol
      (fun s => { s with position := ⟨0, 0⟩ }) (by intro s c' r'; rfl)
  · intro r hr0 hrn s hsome
    have hcond : (0 ≤ (col : ℤ) ∧ (col : ℤ) < gcols cfg) ∧
        0 ≤ r ∧ r < grows cfg := ⟨hcolZ, hr0, hrn⟩
    rw [applyGravity_apply, if_pos hcond, htn] at hsome
    obtain ⟨s0, _, rfl⟩ := Option.map_eq_some'.mp hsome
    rfl

/-! ## Refill, full grids and the cascade loops (claim C6) -/

theorem evaluateWin_grid_eq (cfg : GameConfig) (grid : Grid) (bet : ℚ)
    (fs : Bool) (r : RNGState) :
    (evaluateWin cfg grid bet fs r).2.1 = (findClusters cfg grid 0).2 := by
  simp [evaluateWin]

/-- A `canSpin` state always accepts the `SPIN` event. -/
theorem canSpin_spin_fires (st : GameState) (d : GameStateData)
    (h : canSpin st d = true) : (processEvent st d GameEvent.SPIN).1 = true := by
  unfold canSpin at h
  cases st with
  | IDLE =>
    by_cases hbal : d.bet ≤ d.balance
    · simp [processEvent, transitions, firstFiring, condHolds,
        decide_eq_true hbal]
    · have hlt : d.balance < d.bet := lt_of_not_le hbal
      simp [processEvent, transitions, firstFiring, condHolds, hbal, hlt]
  | FREE_SPINS =>
    simp only [Bool.or_eq_true, beq_iff_eq, Bool.and_eq_true,
      decide_eq_true_eq] at h
    rcases h with h | h
    · exact absurd h (by intro hh; cases hh)
    · simp [processEvent, transitions, firstFiring, condHolds, h.2]
  | SPINNING => simp at h
  | EVALUATING => simp at h
  | TUMBLING => simp at h
  | SHOWING_WIN => simp at h
  | FREE_SPINS_TRIGGER => simp at h
  | GAME_OVER => simp at h

theorem evaluateAndCascade_cascades (cfg : GameConfig)
    (volMult : List (String × ℚ)) (st : GameState) (d : GameStateData)
    (g : Grid) (r : RNGState) :
    (evaluateAndCascade cfg volMult st d g r).1.cascades =
      (cascadeLoop cfg volMult d cfg.gameSettings.maxCascades st d g r [] 0).1
    := by
  simp [evaluateAndCascade]

/-- When `canSpin` holds, `spin` reaches the evaluate/cascade phase with a
freshly filled grid. -/
theorem spin_eq_some (cfg : GameConfig) (volMult : List (String × ℚ))
    (es : EngineState) (hcan : canSpin es.st es.data = true) :
    spin cfg volMult es = some (evaluateAndCascade cfg volMult
      (processEvent (processEvent es.st es.data GameEvent.SPIN).2.1
        (processEvent es.st es.data GameEvent.SPIN).2.2.1
        GameEvent.SPIN_COMPLETE).2.1
      (processEvent (processEvent es.st es.data GameEvent.SPIN).2.1
        (processEvent es.st es.data GameEvent.SPIN).2.2.1
        GameEvent.SPIN_COMPLETE).2.2.1
      (fillEmptyPositions cfg (generateSymbolPool cfg (some volMult)) initGrid
        es.rng).1
      (fillEmptyPositions cfg (generateSymbolPool cfg (some volMult)) initGrid
        es.rng).2) := by
  unfold spin
  rw [if_pos hcan]
  simp only [canSpin_spin_fires es.st es.data hcan, if_true]

/-- The five events fired inside the cascade loop never touch `balance`,
`totalWin` or `freeSpinsRemaining`, from any state. -/
theorem processEvent_loop_preserves (st : GameState) (d : GameStateData)
    (ev : GameEvent)
    (hev : ev = GameEvent.WIN_DETECTED ∨ ev = GameEvent.FREE_SPINS_TRIGGERED ∨
      ev = GameEvent.WIN_ANIMATION_COMPLETE ∨
      ev = GameEvent.TUMBLE_COMPLETE ∨ ev = GameEvent.NO_WIN) :
    (processEvent st d ev).2.2.1.balance = d.balance ∧
    (processEvent st d ev).2.2.1.totalWin = d.totalWin ∧
    (processEvent st d ev).2.2.1.freeSpinsRemaining = d.freeSpinsRemaining := by
  rcases hev with rfl | rfl | rfl | rfl | rfl <;> cases st <;>
    simp [processEvent, transitions, firstFiring, condHolds]

/-- Preservation through the three-event chain fired per cascade. -/
theorem processEvent_chain3_preserves (st : GameState) (d : GameStateData)
    (ev1 ev2 ev3 : GameEvent)
    (h1 : ev1 = GameEvent.WIN_DETECTED ∨ ev1 = GameEvent.FREE_SPINS_TRIGGERED ∨
      ev1 = GameEvent.WIN_ANIMATION_COMPLETE ∨
      ev1 = GameEvent.TUMBLE_COMPLETE ∨ ev1 = GameEvent.NO_WIN)
    (h2 : ev2 = GameEvent.WIN_DETECTED ∨ ev2 = GameEvent.FREE_SPINS_TRIGGERED ∨
      ev2 = GameEvent.WIN_ANIMATION_COMPLETE ∨
      ev2 = GameEvent.TUMBLE_COMPLETE ∨ ev2 = GameEvent.NO_WIN)
    (h3 : ev3 = GameEvent.WIN_DETECTED ∨ ev3 = GameEvent.FREE_SPINS_TRIGGERED ∨
      ev3 = GameEvent.WIN_ANIMATION_COMPLETE ∨
      ev3 = GameEvent.TUMBLE_COMPLETE ∨ ev3 = GameEvent.NO_WIN) :
    (processEvent
      (processEvent (processEvent st d ev1).2.1
        (processEvent st d ev1).2.2.1 ev2).2.1
      (processEvent (processEvent st d ev1).2.1
        (processEvent st d ev1).2.2.1 ev2).2.2.1
      ev3).2.2.1.balance = d.balance ∧
    (processEvent
      (processEvent (processEvent st d ev1).2.1
        (processEvent st d ev1).2.2.1 ev2).2.1
      (processEvent (processEvent st d ev1).2.1
        (processEvent st d ev1).2.2.1 ev2).2.2.1
      ev3).2.2.1.totalWin = d.totalWin ∧
    (processEvent
      (processEvent (processEvent st d ev1).2.1
        (processEvent st d ev1).2.2.1 ev2).2.1
      (processEvent (processEvent st d ev1).2.1
        (processEvent st d ev1).2.2.1 ev2).2.2.1
      ev3).2.2.1.freeSpinsRemaining = d.freeSpinsRemaining := by
  have a1 := processEvent_loop_preserves st d ev1 h1
  have a2 := processEvent_loop_preserves (processEvent st d ev1).2.1
    (processEvent st d ev1).2.2.1 ev2 h2
  have a3 := processEvent_loop_preserves
    (processEvent (processEvent st d ev1).2.1
      (processEvent st d ev1).2.2.1 ev2).2.1
    (processEvent (processEvent st d ev1).2.1
      (processEvent st d ev1).2.2.1 ev2).2.2.1 ev3 h3
  exact ⟨a3.1.trans (a2.1.trans a1.1), a3.2.1.trans (a2.2.1.trans a1.2.1),
    a3.2.2.trans (a2.2.2.trans a1.2.2)⟩

/-- Data flow of the cascade loop: the cascade list only grows, the win
accumulator adds the new cascades' payouts, every awarding cascade
overwrites `freeSpinsRemaining` with the pre-loop snapshot plus its own
award, and `balance`/`totalWin` pass through untouched. -/
theorem cascadeLoop_spec2 (cfg : GameConfig) (volMult : List (String × ℚ))
    (sd : GameStateData) :
    ∀ (fuel : ℕ) (st : GameState) (d : GameStateData) (g : Grid)
      (r : RNGState) (cascades : List WinResult) (tw : ℚ),
      ∃ new : List WinResult,
        (cascadeLoop cfg volMult sd fuel st d g r cascades tw).1 =
          cascades ++ new ∧
        (cascadeLoop cfg volMult sd fuel st d g r cascades tw).2.1 =
          tw + (new.map WinResult.totalPayout).sum ∧
        (cascadeLoop cfg volMult sd fuel st d g r cascades
          tw).2.2.2.1.freeSpinsRemaining =
          new.foldl (fun cur wr => if 0 < wr.freeSpinsAwarded then
            sd.freeSpinsRemaining + wr.freeSpinsAwarded else cur)
            d.freeSpinsRemaining ∧
        (cascadeLoop cfg volMult sd fuel st d g r cascades
          tw).2.2.2.1.balance = d.balance ∧
        (cascadeLoop cfg volMult sd fuel st d g r cascades
          tw).2.2.2.1.totalWin = d.totalWin := by
  intro fuel
  induction fuel with
  | zero =>
    intro st d g r cascades tw
    exact ⟨[], by simp [cascadeLoop], by simp [cascadeLoop],
      by simp [cascadeLoop], by simp [cascadeLoop], by simp [cascadeLoop]⟩
  | succ fuel ih =>
    intro st d g r cascades tw
    by_cases hcond : 0 < (evaluateWin cfg g sd.bet
        sd.isInFreeSpins r).1.clusters.length ∨
        4 ≤ (evaluateWin cfg g sd.bet sd.isInFreeSpins r).1.scatterCount
    · simp only [cascadeLoop]
      rw [if_pos hcond]
      by_cases haw :
        0 < (evaluateWin cfg g sd.bet sd.isInFreeSpins r).1.freeSpinsAwarded
      · rw [if_pos haw]
        obtain ⟨new', e1, e2, e3, e4, e5⟩ := ih _ _ _ _ _ _
        have hch := processEvent_chain3_preserves st
          { d with freeSpinsRemaining := sd.freeSpinsRemaining +
            (evaluateWin cfg g sd.bet sd.isInFreeSpins r).1.freeSpinsAwarded }
          GameEvent.FREE_SPINS_TRIGGERED GameEvent.WIN_ANIMATION_COMPLETE
          GameEvent.TUMBLE_COMPLETE (Or.inr (Or.inl rfl))
          (Or.inr (Or.inr (Or.inl rfl))) (Or.inr (Or.inr (Or.inr (Or.inl rfl))))
        refine ⟨(evaluateWin cfg g sd.bet sd.isInFreeSpins r).1 :: new',
          ?_, ?_, ?_, ?_, ?_⟩
        · rw [e1, List.append_assoc]
          rfl
        · rw [e2, List.map_cons, List.sum_cons]
          ring
        · rw [e3, hch.2.2]
          rw [List.foldl_cons, if_pos haw]
        · rw [e4, hch.1]
        · rw [e5, hch.2.1]
      · rw [if_neg haw]
        obtain ⟨new', e1, e2, e3, e4, e5⟩ := ih _ _ _ _ _ _
        have hch := processEvent_chain3_preserves st d
          GameEvent.WIN_DETECTED GameEvent.WIN_ANIMATION_COMPLETE
          GameEvent.TUMBLE_COMPLETE (Or.inl rfl)
          (Or.inr (Or.inr (Or.inl rfl))) (Or.inr (Or.inr (Or.inr (Or.inl rfl))))
        refine ⟨(evaluateWin cfg g sd.bet sd.isInFreeSpins r).1 :: new',
          ?_, ?_, ?_, ?_, ?_⟩
        · rw [e1, List.append_assoc]
          rfl
        · rw [e2, List.map_cons, List.sum_cons]
          ring
        · rw [e3, hch.2.2]
          rw [List.foldl_cons, if_neg haw]
        · rw [e4, hch.1]
        · rw [e5, hch.2.1]
    · have hnw := processEvent_loop_preserves st d GameEvent.NO_WIN
        (Or.inr (Or.inr (Or.inr (Or.inr rfl))))
      simp only [cascadeLoop]
      rw [if_neg hcond]
      refine ⟨[], by simp, by simp, ?_, ?_, ?_⟩
      · simpa using hnw.2.2
      · simpa using hnw.1
      · simpa using hnw.2.1

theorem processEvent_fs_spin (d : GameStateData)
    (h : 0 < d.freeSpinsRemaining) :
    processEvent GameState.FREE_SPINS d GameEvent.SPIN =
      (true, GameState.SPINNING,
       { d with freeSpinsRemaining := d.freeSpinsRemaining - 1,
                cascadeCount := 0 },
       [(GameState.FREE_SPINS, GameState.SPINNING, GameEvent.SPIN)]) := by
  simp [processEvent, transitions, firstFiring, condHolds, h]

theorem processEvent_spinning_complete (d : GameStateData) :
    processEvent GameState.SPINNING d GameEvent.SPIN_COMPLETE =
      (true, GameState.EVALUATING, d,
       [(GameState.SPINNING, GameState.EVALUATING, GameEvent.SPIN_COMPLETE)])
    := by
  simp [processEvent, transitions, firstFiring, condHolds]

theorem evaluateAndCascade_totalWin (cfg : GameConfig)
    (volMult : List (String × ℚ)) (st : GameState) (d : GameStateData)
    (g : Grid) (r : RNGState) :
    (evaluateAndCascade cfg volMult st d g r).1.totalWin =
      (cascadeLoop cfg volMult d cfg.gameSettings.maxCascades st d g r [] 0).2.1
    := by
  simp [evaluateAndCascade]

theorem evaluateAndCascade_fsa (cfg : GameConfig)
    (volMult : List (String × ℚ)) (st : GameState) (d : GameStateData)
    (g : Grid) (r : RNGState) :
    (evaluateAndCascade cfg volMult st d g r).1.freeSpinsAwarded =
      (cascadeLoop cfg volMult d cfg.gameSettings.maxCascades st d g r []
        0).1.foldl (fun sum c => sum + c.freeSpinsAwarded) 0 := by
  simp [evaluateAndCascade]

theorem evaluateAndCascade_data_balance (cfg : GameConfig)
    (volMult : List (String × ℚ)) (st : GameState) (d : GameStateData)
    (g : Grid) (r : RNGState) :
    (evaluateAndCascade cfg volMult st d g r).2.data.balance =
      if d.isInFreeSpins then
        (cascadeLoop cfg volMult d cfg.gameSettings.maxCascades st d g r []
          0).2.2.2.1.balance
      else d.balance +
        (cascadeLoop cfg volMult d cfg.gameSettings.maxCascades st d g r []
          0).2.1 := by
  by_cases h : d.isInFreeSpins <;> simp [evaluateAndCascade, h]

theorem evaluateAndCascade_data_totalWin (cfg : GameConfig)
    (volMult : List (String × ℚ)) (st : GameState) (d : GameStateData)
    (g : Grid) (r : RNGState) :
    (evaluateAndCascade cfg volMult st d g r).2.data.totalWin =
      d.totalWin +
        (cascadeLoop cfg volMult d cfg.gameSettings.maxCascades st d g r []
          0).2.1 := by
  by_cases h : d.isInFreeSpins <;> simp [evaluateAndCascade, h]

theorem evaluateAndCascade_data_remaining (cfg : GameConfig)
    (volMult : List (String × ℚ)) (st : GameState) (d : GameStateData)
    (g : Grid) (r : RNGState) :
    (evaluateAndCascade cfg volMult st d g r).2.data.freeSpinsRemaining =
      (cascadeLoop cfg volMult d cfg.gameSettings.maxCascades st d g r []
        0).2.2.2.1.freeSpinsRemaining := by
  by_cases h : d.isInFreeSpins <;> simp [evaluateAndCascade, h]

/-- Claim C7: during free spins (entered from the `FREE_SPINS` state with
`isInFreeSpins` set), a completed `spin()` leaves `balance` unchanged and
adds the spin's cascade-summed win to `totalWin` only; outside free spins
(spinning from `IDLE`) the spin's win is credited to `balance` at the end
of the spin; and processing `FREE_SPINS_COMPLETE` in `FREE_SPINS` moves to
`IDLE` atomically setting `isInFreeSpins := false`,
`freeSpinsRemaining := 0`, `balance := balance + totalWin` and
`totalWin := 0`. -/
theorem free_spins_accounting :
    (∀ (cfg : GameConfig) (volMult : List (String × ℚ)) (es : EngineState)
      (res : SpinResult) (es' : EngineState),
      es.st = GameState.FREE_SPINS → es.data.isInFreeSpins = true →
      spin cfg volMult es = some (res, es') →
      es'.data.balance = es.data.balance ∧
      es'.data.totalWin = es.data.totalWin + res.totalWin) ∧
    (∀ (cfg : GameConfig) (volMult : List (String × ℚ)) (es : EngineState)
      (res : SpinResult) (es' : EngineState),
      es.st = GameState.IDLE → es.data.isInFreeSpins = false →
      es.data.bet ≤ es.data.balance →
      spin cfg volMult es = some (res, es') →
      es'.data.balance = es.data.balance - es.data.bet + res.totalWin) ∧
    (∀ d : GameStateData,
      processEvent GameState.FREE_SPINS d GameEvent.FREE_SPINS_COMPLETE =
        (true, GameState.IDLE,
         { d with isInFreeSpins := false, freeSpinsRemaining := 0,
                  balance := d.balance + d.totalWin, totalWin := 0 },
         [(GameState.FREE_SPINS, GameState.IDLE,
           GameEvent.FREE_SPINS_COMPLETE)])) := by
  refine ⟨?_, ?_, ?_⟩
  · intro cfg volMult es res es' hst hfs hspin
    by_cases hcan : canSpin es.st es.data = true
    · have heq := spin_eq_some cfg volMult es hcan
      rw [hst] at heq
      rw [heq] at hspin
      have hpair := Option.some.inj hspin
      have hrem : 0 < es.data.freeSpinsRemaining := by
        rw [hst] at hcan
        simpa [canSpin] using hcan
      simp only [processEvent_fs_spin es.data hrem,
        processEvent_spinning_complete] at hpair
      have hres := congrArg Prod.fst hpair
      have hes' := congrArg Prod.snd hpair
      simp only [Prod.fst, Prod.snd] at hres hes'
      obtain ⟨newcs, l1, l2, l3, l4, l5⟩ := cascadeLoop_spec2 cfg volMult
        { es.data with
          freeSpinsRemaining := es.data.freeSpinsRemaining - 1,
          cascadeCount := 0 }
        cfg.gameSettings.maxCascades GameState.EVALUATING
        { es.data with
          freeSpinsRemaining := es.data.freeSpinsRemaining - 1,
          cascadeCount := 0 }
        (fillEmptyPositions cfg (generateSymbolPool cfg (some volMult))
          initGrid es.rng).1
        (fillEmptyPositions cfg (generateSymbolPool cfg (some volMult))
          initGrid es.rng).2 [] 0
      constructor
      · rw [← hes', evaluateAndCascade_data_balance]
        rw [if_pos (by simpa using hfs), l4]
      · rw [← hes', ← hres, evaluateAndCascade_data_totalWin,
          evaluateAndCascade_totalWin]
    · unfold spin at hspin
      rw [if_neg hcan] at hspin
      exact absurd hspin (by simp)
  · intro cfg volMult es res es' hst hfs hbet hspin
    have hcan : canSpin es.st es.data = true := by
      simp [canSpin, hst]
    have heq := spin_eq_some cfg volMult es hcan
    rw [hst] at heq
    rw [heq] at hspin
    have hpair := Option.some.inj hspin
    have hev : processEvent GameState.IDLE es.data GameEvent.SPIN =
        (true, GameState.SPINNING, spinDeductAction es.data,
         [(GameState.IDLE, GameState.SPINNING, GameEvent.SPIN)]) := by
      simp [processEvent, transitions, firstFiring, condHolds,
        decide_eq_true hbet, spinDeductAction]
    simp only [hev, processEvent_spinning_complete] at hpair
    have hres := congrArg Prod.fst hpair
    have hes' := congrArg Prod.snd hpair
    simp only [Prod.fst, Prod.snd] at hres hes'
    rw [← hes', evaluateAndCascade_data_balance]
    have hnofs : (spinDeductAction es.data).isInFreeSpins = false := by
      simpa [spinDeductAction] using hfs
    rw [if_neg (by rw [hnofs]; exact Bool.false_ne_true)]
    rw [← hres, evaluateAndCascade_totalWin]
    show (spinDeductAction es.data).balance + _ = _
    simp [spinDeductAction]
  · intro d
    simp [processEvent, transitions, firstFiring, condHolds]

theorem foldl_add_sum {α : Type} (f : α → ℚ) :
    ∀ (l : List α) (a : ℚ), l.foldl (fun s c => s + f c) a = a + (l.map f).sum
  := by
  intro l
  induction l with
  | nil => intro a; simp
  | cons x t ih =>
    intro a
    rw [List.foldl_cons, ih, List.map_cons, List.sum_cons]
    ring

unseal Rat.add Rat.mul Rat.inv Rat.sub Rat.ofScientific in
/-- Claim C10 counterexample: on `cfgC10` a single spin has two cascades,
each awarding 5 free spins.  `SpinResult.freeSpinsAwarded` reports the sum
10, but `freeSpinsRemaining` ends at 5 (each awarding cascade overwrote the
pre-loop snapshot), so the spin did not increase `freeSpinsRemaining` by
the cascade sum. -/
theorem free_spins_update_counterexample :
    ∃ res es', spin cfgC10 [] esC10 = some (res, es') ∧
      esC10.data.freeSpinsRemaining = 0 ∧
      res.freeSpinsAwarded = 10 ∧
      es'.data.freeSpinsRemaining = 5 ∧
      ¬ es'.data.freeSpinsRemaining =
          esC10.data.freeSpinsRemaining + res.freeSpinsAwarded := by
  refine ⟨((spin cfgC10 [] esC10).getD pairC10dflt).1,
    ((spin cfgC10 [] esC10).getD pairC10dflt).2, rfl, rfl, ?_, ?_, ?_⟩
  · decide
  · decide
  · decide

/-- Claim C10 as amended: each awarding cascade sets `freeSpinsRemaining`
to the pre-loop snapshot plus that cascade's award (so consecutive awards
overwrite rather than accumulate), and `SpinResult.freeSpinsAwarded`
equals the sum of `freeSpinsAwarded` over all cascades. -/
theorem free_spins_update_amended (cfg : GameConfig)
    (volMult : List (String × ℚ)) (st : GameState) (d : GameStateData)
    (g : Grid) (r : RNGState) :
    (evaluateAndCascade cfg volMult st d g r).1.freeSpinsAwarded =
      ((evaluateAndCascade cfg volMult st d g r).1.cascades.map
        WinResult.freeSpinsAwarded).sum ∧
    (evaluateAndCascade cfg volMult st d g r).2.data.freeSpinsRemaining =
      (evaluateAndCascade cfg volMult st d g r).1.cascades.foldl
        (fun cur wr => if 0 < wr.freeSpinsAwarded then
          d.freeSpinsRemaining + wr.freeSpinsAwarded else cur)
        d.freeSpinsRemaining := by
  obtain ⟨newcs, l1, l2, l3, l4, l5⟩ := cascadeLoop_spec2 cfg volMult d
    cfg.gameSettings.maxCascades st d g r [] 0
  have hnew : (cascadeLoop cfg volMult d cfg.gameSettings.maxCascades st d g
      r [] 0).1 = newcs := by
    rw [l1]
    rfl
  constructor
  · rw [evaluateAndCascade_fsa, evaluateAndCascade_cascades,
      foldl_add_sum, zero_add]
  · rw [evaluateAndCascade_data_remaining, evaluateAndCascade_cascades, l3,
      hnew]

/-- Claim C5 witness: the gravity invariant instantiated on the 2×2
configuration `cfgC10`, the empty grid and column 0. -/
theorem gravity_invariant_witness :
    (∀ r1 r2 : ℤ, 0 ≤ r1 → r1 ≤ r2 → r2 < grows cfgC10 →
      ((applyGravity cfgC10 initGrid) r1 ((0 : ℕ) : ℤ)).isSome →
      ((applyGravity cfgC10 initGrid) r2 ((0 : ℕ) : ℤ)).isSome) ∧
    (columnSymbols cfgC10 (applyGravity cfgC10 initGrid) 0).map
        GameSymbol.id =
      (columnSymbols cfgC10 initGrid 0).map GameSymbol.id ∧
    (columnSymbols cfgC10 (applyGravity cfgC10 initGrid) 0).map
        (fun s => { s with position := ⟨0, 0⟩ }) =
      (columnSymbols cfgC10 initGrid 0).map
        (fun s => { s with position := ⟨0, 0⟩ }) ∧
    (∀ r : ℤ, 0 ≤ r → r < grows cfgC10 → ∀ s,
      (applyGravity cfgC10 initGrid) r ((0 : ℕ) : ℤ) = some s →
      s.position = ⟨((0 : ℕ) : ℤ), r⟩) :=
  gravity_invariant cfgC10 initGrid 0 (by decide)

unseal Rat.add Rat.mul Rat.inv Rat.sub Rat.ofScientific in
/-- Claim C4 counterexample to the original partition claim: on `gE` the
single cell (0,0) is occupied and in bounds, yet `evaluateWin` returns no
clusters at all — the empty-string id is falsy for `floodFill`'s
`if (!symbolId)` early return, so the occupied cell belongs to no cluster
and the cluster sizes sum to 0 while the occupied-cell count is 1. -/
theorem cluster_partition_counterexample :
    (gE 0 0).isSome = true ∧
    inBp cfgE ⟨0, 0⟩ ∧
    (evaluateWin cfgE gE 1 false rngE).1.clusters = [] ∧
    (((evaluateWin cfgE gE 1 false rngE).1.clusters.map Cluster.size).sum
      = 0) ∧
    (occKeys cfgE gE).card = 1 := by
  refine ⟨rfl, ⟨by decide, by decide, by decide, by decide⟩, ?_, ?_, ?_⟩
  · decide
  · decide
  · decide

